import Mathlib

/-!
Verification development for the primitive batching and draw-order engine
(`crates/gpui/src/scene.rs`): the `Scene` store, the `BatchIterator` k-way
merge, and the `Path` builder.

Machine numerics are embedded as follows: `f32` pixel/color quantities become
`ℚ` (no rounding is at stake in any verified property), `u32` draw orders and
`usize` counts become `Nat`.  The `u32::MAX` sentinel used by
`BatchIterator::next` to encode an exhausted cursor is embedded as a genuine
top element (orders in a frame are far below `2^32`, the sentinel only serves
as plus-infinity in the key comparison).
-/

namespace Zed

/-- Modelled from the spec: the geometry collaborator (`crate::Point` etc.,
not under `src/`) — plain 2-D points in a scalar coordinate space. -/
structure Point where
  x : ℚ
  y : ℚ
deriving DecidableEq

/-- Modelled from the spec: sizes of axis-aligned boxes. -/
structure Size where
  width : ℚ
  height : ℚ
deriving DecidableEq

/-- Modelled from the spec: axis-aligned bounds (`crate::Bounds`). -/
structure Bounds where
  origin : Point
  size : Size
deriving DecidableEq

def qmax (a b : ℚ) : ℚ := if a ≤ b then b else a

def qmin (a b : ℚ) : ℚ := if a ≤ b then a else b

/-- Modelled from the spec: bounds intersection from the geometry
collaborator — upper-left is the max of origins, lower-right the min of the
opposite corners. -/
def Bounds.intersect (a b : Bounds) : Bounds :=
  let x0 := qmax a.origin.x b.origin.x
  let y0 := qmax a.origin.y b.origin.y
  let x1 := qmin (a.origin.x + a.size.width) (b.origin.x + b.size.width)
  let y1 := qmin (a.origin.y + a.size.height) (b.origin.y + b.size.height)
  ⟨⟨x0, y0⟩, ⟨x1 - x0, y1 - y0⟩⟩

/-- Modelled from the spec: bounds union from the geometry collaborator. -/
def Bounds.union (a b : Bounds) : Bounds :=
  let x0 := qmin a.origin.x b.origin.x
  let y0 := qmin a.origin.y b.origin.y
  let x1 := qmax (a.origin.x + a.size.width) (b.origin.x + b.size.width)
  let y1 := qmax (a.origin.y + a.size.height) (b.origin.y + b.size.height)
  ⟨⟨x0, y0⟩, ⟨x1 - x0, y1 - y0⟩⟩

def Point.scale (p : Point) (factor : ℚ) : Point :=
  ⟨p.x * factor, p.y * factor⟩

def Bounds.scale (b : Bounds) (factor : ℚ) : Bounds :=
  ⟨b.origin.scale factor, ⟨b.size.width * factor, b.size.height * factor⟩⟩

/-- Modelled from the spec: the active clip rectangle
(`crate::ContentMask`); corner radii play no role in this core. -/
structure ContentMask where
  bounds : Bounds
deriving DecidableEq

def ContentMask.scale (m : ContentMask) (factor : ℚ) : ContentMask :=
  ⟨m.bounds.scale factor⟩

/-- Modelled from the spec: colors are inert value types here. -/
structure Hsla where
  h : ℚ
  s : ℚ
  l : ℚ
  a : ℚ
deriving DecidableEq

/-- Modelled from the spec: per-corner radii, inert in this core. -/
structure Corners where
  top_left : ℚ
  top_right : ℚ
  bottom_right : ℚ
  bottom_left : ℚ
deriving DecidableEq

/-- Modelled from the spec: border-edge widths, inert in this core. -/
structure Edges where
  top : ℚ
  right : ℚ
  bottom : ℚ
  left : ℚ
deriving DecidableEq

/-- Modelled from the spec: the texture-atlas handle
(`crate::AtlasTile`, not under `src/`) — an opaque pair of a texture id and a
tile id; `scene.rs` reads `tile.texture_id` for batch splitting and
`tile.tile_id` in the sprite `Ord` implementations. -/
structure AtlasTile where
  texture_id : Nat
  tile_id : Nat
deriving DecidableEq

/-- `struct Shadow` from `scene.rs` (the `pad` field is alignment only and
is dropped). -/
structure Shadow where
  order : Nat
  bounds : Bounds
  corner_radii : Corners
  content_mask : ContentMask
  color : Hsla
  blur_radius : ℚ
deriving DecidableEq

/-- `struct Quad` from `scene.rs`. -/
structure Quad where
  order : Nat
  bounds : Bounds
  content_mask : ContentMask
  background : Hsla
  border_color : Hsla
  corner_radii : Corners
  border_widths : Edges
deriving DecidableEq

/-- `struct Underline` from `scene.rs`. -/
structure Underline where
  order : Nat
  bounds : Bounds
  content_mask : ContentMask
  color : Hsla
  thickness : ℚ
  wavy : Bool
deriving DecidableEq

/-- `struct MonochromeSprite` from `scene.rs`. -/
structure MonochromeSprite where
  order : Nat
  bounds : Bounds
  content_mask : ContentMask
  color : Hsla
  tile : AtlasTile
deriving DecidableEq

/-- `struct PolychromeSprite` from `scene.rs` (alignment `pad` dropped). -/
structure PolychromeSprite where
  order : Nat
  bounds : Bounds
  content_mask : ContentMask
  corner_radii : Corners
  tile : AtlasTile
  grayscale : Bool
deriving DecidableEq

/-- `struct Surface` from `scene.rs`; the macOS-only `image_buffer` field is
behind `cfg(target_os = "macos")` and carries no batching-relevant data. -/
structure Surface where
  order : Nat
  bounds : Bounds
  content_mask : ContentMask
deriving DecidableEq

/-- `struct PathVertex` from `scene.rs`. -/
structure PathVertex where
  xy_position : Point
  st_position : Point
  content_mask : ContentMask
deriving DecidableEq

/-- `PathVertex::scale` from `scene.rs`. -/
def PathVertex.scale (v : PathVertex) (factor : ℚ) : PathVertex :=
  ⟨v.xy_position.scale factor, v.st_position, v.content_mask.scale factor⟩

/-- `struct Path` from `scene.rs`; the `Pixels`/`ScaledPixels` phantom
precision units both erase to `ℚ`, and `PathId` to `Nat`. -/
structure Path where
  id : Nat
  order : Nat
  bounds : Bounds
  content_mask : ContentMask
  vertices : List PathVertex
  color : Hsla
  start : Point
  current : Point
  contour_count : Nat
deriving DecidableEq

/-- `Path::new` from `scene.rs`. -/
def Path.new (start : Point) : Path where
  id := 0
  order := 0
  vertices := []
  start := start
  current := start
  bounds := ⟨start, ⟨0, 0⟩⟩
  content_mask := ⟨⟨⟨0, 0⟩, ⟨0, 0⟩⟩⟩
  color := ⟨0, 0, 0, 0⟩
  contour_count := 0

/-- `Path::scale` from `scene.rs`. -/
def Path.scale (p : Path) (factor : ℚ) : Path where
  id := p.id
  order := p.order
  bounds := p.bounds.scale factor
  content_mask := p.content_mask.scale factor
  vertices := p.vertices.map (fun v => v.scale factor)
  start := p.start.scale factor
  current := p.current.scale factor
  contour_count := p.contour_count
  color := p.color

/-- `Path::push_triangle` from `scene.rs`. -/
def Path.push_triangle (p : Path) (xy : Point × Point × Point)
    (st : Point × Point × Point) : Path :=
  { p with
    bounds := ((p.bounds.union ⟨xy.1, ⟨0, 0⟩⟩).union ⟨xy.2.1, ⟨0, 0⟩⟩).union
      ⟨xy.2.2, ⟨0, 0⟩⟩
    vertices := p.vertices ++
      [⟨xy.1, st.1, ⟨⟨⟨0, 0⟩, ⟨0, 0⟩⟩⟩⟩,
       ⟨xy.2.1, st.2.1, ⟨⟨⟨0, 0⟩, ⟨0, 0⟩⟩⟩⟩,
       ⟨xy.2.2, st.2.2, ⟨⟨⟨0, 0⟩, ⟨0, 0⟩⟩⟩⟩] }

/-- `Path::line_to` from `scene.rs` (the Rust parameter `to` is a reserved
token in Lean and is named `dest` here). -/
def Path.line_to (p : Path) (dest : Point) : Path :=
  let p := { p with contour_count := p.contour_count + 1 }
  let p :=
    if p.contour_count > 1 then
      p.push_triangle (p.start, p.current, dest) (⟨0, 1⟩, ⟨0, 1⟩, ⟨0, 1⟩)
    else p
  { p with current := dest }

/-- `Path::curve_to` from `scene.rs` (parameter `to` renamed `dest`). -/
def Path.curve_to (p : Path) (dest ctrl : Point) : Path :=
  let p := { p with contour_count := p.contour_count + 1 }
  let p :=
    if p.contour_count > 1 then
      p.push_triangle (p.start, p.current, dest) (⟨0, 1⟩, ⟨0, 1⟩, ⟨0, 1⟩)
    else p
  let p := p.push_triangle (p.current, ctrl, dest) (⟨0, 0⟩, ⟨1/2, 0⟩, ⟨1, 1⟩)
  { p with current := dest }

/-- `enum PrimitiveKind` from `scene.rs`; the Rust `derive(PartialOrd, Ord)`
orders variants by declaration order. -/
inductive PrimitiveKind where
  | Shadow
  | Quad
  | Path
  | Underline
  | MonochromeSprite
  | PolychromeSprite
  | Surface
deriving DecidableEq

/-- The comparison key of a `PrimitiveKind` under the Rust derived `Ord`:
the declaration index Shadow = 0, Quad = 1, Path = 2, Underline = 3,
MonochromeSprite = 4, PolychromeSprite = 5, Surface = 6. -/
def PrimitiveKind.rank : PrimitiveKind → Nat
  | .Shadow => 0
  | .Quad => 1
  | .Path => 2
  | .Underline => 3
  | .MonochromeSprite => 4
  | .PolychromeSprite => 5
  | .Surface => 6

/-- The kind-priority enumeration in its stated order, used to check that
`rank` really encodes Shadow < Quad < Path < Underline < MonochromeSprite <
PolychromeSprite < Surface. -/
def kindPriority : List PrimitiveKind :=
  [.Shadow, .Quad, .Path, .Underline, .MonochromeSprite, .PolychromeSprite,
   .Surface]

/-- `enum Primitive` from `scene.rs`. -/
inductive Primitive where
  | Shadow (shadow : Shadow)
  | Quad (quad : Quad)
  | Path (path : Path)
  | Underline (underline : Underline)
  | MonochromeSprite (sprite : MonochromeSprite)
  | PolychromeSprite (sprite : PolychromeSprite)
  | Surface (surface : Surface)
deriving DecidableEq

/-- `Primitive::bounds` from `scene.rs`. -/
def Primitive.bounds : Primitive → Bounds
  | .Shadow shadow => shadow.bounds
  | .Quad quad => quad.bounds
  | .Path path => path.bounds
  | .Underline underline => underline.bounds
  | .MonochromeSprite sprite => sprite.bounds
  | .PolychromeSprite sprite => sprite.bounds
  | .Surface surface => surface.bounds

/-- `Primitive::content_mask` from `scene.rs`. -/
def Primitive.content_mask : Primitive → ContentMask
  | .Shadow shadow => shadow.content_mask
  | .Quad quad => quad.content_mask
  | .Path path => path.content_mask
  | .Underline underline => underline.content_mask
  | .MonochromeSprite sprite => sprite.content_mask
  | .PolychromeSprite sprite => sprite.content_mask
  | .Surface surface => surface.content_mask

/-- `impl Ord for Shadow` from `scene.rs`: compare by `order`. -/
def Shadow.cmp (a b : Shadow) : Ordering := compare a.order b.order

/-- `impl Ord for Quad` from `scene.rs`: compare by `order`. -/
def Quad.cmp (a b : Quad) : Ordering := compare a.order b.order

/-- `impl Ord for Path` from `scene.rs`: compare by `order`. -/
def Path.cmp (a b : Path) : Ordering := compare a.order b.order

/-- `impl Ord for Underline` from `scene.rs`: compare by `order`. -/
def Underline.cmp (a b : Underline) : Ordering := compare a.order b.order

/-- `impl Ord for MonochromeSprite` from `scene.rs`: compare by `order`,
ties broken by `tile.tile_id`. -/
def MonochromeSprite.cmp (a b : MonochromeSprite) : Ordering :=
  match compare a.order b.order with
  | Ordering.eq => compare a.tile.tile_id b.tile.tile_id
  | ord => ord

/-- `impl Ord for PolychromeSprite` from `scene.rs`: compare by `order`,
ties broken by `tile.tile_id`. -/
def PolychromeSprite.cmp (a b : PolychromeSprite) : Ordering :=
  match compare a.order b.order with
  | Ordering.eq => compare a.tile.tile_id b.tile.tile_id
  | ord => ord

/-- `impl Ord for Surface` from `scene.rs`: compare by `order`. -/
def Surface.cmp (a b : Surface) : Ordering := compare a.order b.order

def shadowLE (a b : Shadow) : Prop := Shadow.cmp a b ≠ Ordering.gt

instance : DecidableRel shadowLE :=
  fun a b => inferInstanceAs (Decidable (Shadow.cmp a b ≠ Ordering.gt))

def quadLE (a b : Quad) : Prop := Quad.cmp a b ≠ Ordering.gt

instance : DecidableRel quadLE :=
  fun a b => inferInstanceAs (Decidable (Quad.cmp a b ≠ Ordering.gt))

def pathLE (a b : Path) : Prop := Path.cmp a b ≠ Ordering.gt

instance : DecidableRel pathLE :=
  fun a b => inferInstanceAs (Decidable (Path.cmp a b ≠ Ordering.gt))

def underlineLE (a b : Underline) : Prop := Underline.cmp a b ≠ Ordering.gt

instance : DecidableRel underlineLE :=
  fun a b => inferInstanceAs (Decidable (Underline.cmp a b ≠ Ordering.gt))

def monoLE (a b : MonochromeSprite) : Prop :=
  MonochromeSprite.cmp a b ≠ Ordering.gt

instance : DecidableRel monoLE :=
  fun a b => inferInstanceAs (Decidable (MonochromeSprite.cmp a b ≠ Ordering.gt))

def polyLE (a b : PolychromeSprite) : Prop :=
  PolychromeSprite.cmp a b ≠ Ordering.gt

instance : DecidableRel polyLE :=
  fun a b => inferInstanceAs (Decidable (PolychromeSprite.cmp a b ≠ Ordering.gt))

def surfaceLE (a b : Surface) : Prop := Surface.cmp a b ≠ Ordering.gt

instance : DecidableRel surfaceLE :=
  fun a b => inferInstanceAs (Decidable (Surface.cmp a b ≠ Ordering.gt))

/-- `struct Scene` from `scene.rs`.  The `primitive_bounds : BoundsTree`
collaborator is not under `src/`; modelled from the spec as the spatial
order index black box returning unique, insertion-consistent order tokens —
here a monotone counter `next_order`. -/
structure Scene where
  primitives : List Primitive
  next_order : Nat
  shadows : List Shadow
  quads : List Quad
  paths : List Path
  underlines : List Underline
  monochrome_sprites : List MonochromeSprite
  polychrome_sprites : List PolychromeSprite
  surfaces : List Surface
deriving DecidableEq

/-- `Scene::default()`: all lists empty, the order index fresh. -/
def Scene.empty : Scene := ⟨[], 0, [], [], [], [], [], [], []⟩

/-- `Scene::clear` from `scene.rs`: empties every list and resets the
order index. -/
def Scene.clear (_ : Scene) : Scene := Scene.empty

/-- `Scene::len` from `scene.rs`. -/
def Scene.len (s : Scene) : Nat := s.primitives.length

/-- `Scene::push` from `scene.rs`: clip against the content mask, drop
degenerate geometry, stamp the order token, append to the kind list and to
`primitives`. -/
def Scene.push (s : Scene) (primitive : Primitive) : Scene :=
  let clipped_bounds := primitive.bounds.intersect primitive.content_mask.bounds
  if clipped_bounds.size.width ≤ 0 ∨ clipped_bounds.size.height ≤ 0 then s
  else
    let order := s.next_order
    match primitive with
    | Primitive.Shadow shadow =>
      { s with next_order := order + 1,
               shadows := s.shadows ++ [{ shadow with order := order }],
               primitives :=
                 s.primitives ++ [Primitive.Shadow { shadow with order := order }] }
    | Primitive.Quad quad =>
      { s with next_order := order + 1,
               quads := s.quads ++ [{ quad with order := order }],
               primitives :=
                 s.primitives ++ [Primitive.Quad { quad with order := order }] }
    | Primitive.Path path =>
      { s with next_order := order + 1,
               paths := s.paths ++ [{ path with order := order, id := s.paths.length }],
               primitives :=
                 s.primitives ++
                   [Primitive.Path { path with order := order, id := s.paths.length }] }
    | Primitive.Underline underline =>
      { s with next_order := order + 1,
               underlines := s.underlines ++ [{ underline with order := order }],
               primitives :=
                 s.primitives ++
                   [Primitive.Underline { underline with order := order }] }
    | Primitive.MonochromeSprite sprite =>
      { s with next_order := order + 1,
               monochrome_sprites :=
                 s.monochrome_sprites ++ [{ sprite with order := order }],
               primitives :=
                 s.primitives ++
                   [Primitive.MonochromeSprite { sprite with order := order }] }
    | Primitive.PolychromeSprite sprite =>
      { s with next_order := order + 1,
               polychrome_sprites :=
                 s.polychrome_sprites ++ [{ sprite with order := order }],
               primitives :=
                 s.primitives ++
                   [Primitive.PolychromeSprite { sprite with order := order }] }
    | Primitive.Surface surface =>
      { s with next_order := order + 1,
               surfaces := s.surfaces ++ [{ surface with order := order }],
               primitives :=
                 s.primitives ++ [Primitive.Surface { surface with order := order }] }

/-- `Scene::finish` from `scene.rs`: sort every kind list by its `Ord`
implementation (`sort_unstable` is modelled by insertion sort; all verified
statements are insensitive to the choice among sorted permutations). -/
def Scene.finish (s : Scene) : Scene :=
  { s with shadows := List.insertionSort shadowLE s.shadows,
           quads := List.insertionSort quadLE s.quads,
           paths := List.insertionSort pathLE s.paths,
           underlines := List.insertionSort underlineLE s.underlines,
           monochrome_sprites := List.insertionSort monoLE s.monochrome_sprites,
           polychrome_sprites := List.insertionSort polyLE s.polychrome_sprites,
           surfaces := List.insertionSort surfaceLE s.surfaces }

/-- `enum PrimitiveBatch` from `scene.rs`; the borrowed sub-slices are
embedded as the lists of their elements. -/
inductive PrimitiveBatch where
  | Shadows (shadows : List Shadow)
  | Quads (quads : List Quad)
  | Paths (paths : List Path)
  | Underlines (underlines : List Underline)
  | MonochromeSprites (texture_id : Nat) (sprites : List MonochromeSprite)
  | PolychromeSprites (texture_id : Nat) (sprites : List PolychromeSprite)
  | Surfaces (surfaces : List Surface)
deriving DecidableEq

/-- `struct BatchIterator` from `scene.rs`: the per-kind forward cursors are
embedded as the not-yet-consumed suffix of each (sorted) kind list; the
`*_start` indices and backing slices are determined by what has been
consumed and need no separate representation. -/
structure BatchState where
  shadows : List Shadow
  quads : List Quad
  paths : List Path
  underlines : List Underline
  monochrome_sprites : List MonochromeSprite
  polychrome_sprites : List PolychromeSprite
  surfaces : List Surface
deriving DecidableEq

/-- `Scene::batches` from `scene.rs`: the initial iterator state with every
cursor at the front of its kind list. -/
def Scene.batches (s : Scene) : BatchState :=
  ⟨s.shadows, s.quads, s.paths, s.underlines, s.monochrome_sprites,
   s.polychrome_sprites, s.surfaces⟩

/-- One entry of the `orders_and_kinds` array in `BatchIterator::next`:
the peeked head order (`None` when the cursor is exhausted) and the kind. -/
abbrev Entry := Option Nat × PrimitiveKind

/-- Strict lexicographic order on `Nat` triples: the comparison backing the
sort key `(order.unwrap_or(u32::MAX), kind)` and the ceiling test of
`BatchIterator::next`. -/
def lex3Lt : Nat × Nat × Nat → Nat × Nat × Nat → Prop
  | (a1, a2, a3), (b1, b2, b3) =>
    a1 < b1 ∨ (a1 = b1 ∧ (a2 < b2 ∨ (a2 = b2 ∧ a3 < b3)))

instance (a b : Nat × Nat × Nat) : Decidable (lex3Lt a b) := by
  rcases a with ⟨a1, a2, a3⟩
  rcases b with ⟨b1, b2, b3⟩
  exact inferInstanceAs
    (Decidable (a1 < b1 ∨ (a1 = b1 ∧ (a2 < b2 ∨ (a2 = b2 ∧ a3 < b3)))))

/-- The sort key of an entry, embedding `order.unwrap_or(u32::MAX)` with an
exhausted cursor strictly above every real order: `(0, order, kind rank)`
for a live cursor and `(1, 0, kind rank)` for an exhausted one. -/
def entryKey (e : Entry) : Nat × Nat × Nat :=
  match e.1 with
  | some o => (0, o, e.2.rank)
  | none => (1, 0, e.2.rank)

/-- The `sort_by_key` comparison of `BatchIterator::next` as a relation. -/
def entryLE (a b : Entry) : Prop := ¬ lex3Lt (entryKey b) (entryKey a)

instance : DecidableRel entryLE :=
  fun a b => inferInstanceAs (Decidable (¬ lex3Lt (entryKey b) (entryKey a)))

/-- The ceiling test `(order, batch_kind) < max_order_and_kind` of
`BatchIterator::next`, where the ceiling entry `c` contributes
`(c.order.unwrap_or(u32::MAX), c.kind)`. -/
def belowCeiling (o : Nat) (k : PrimitiveKind) (c : Entry) : Bool :=
  decide (lex3Lt (0, o, k.rank) (entryKey c))

/-- The peeked `(order, kind)` entry of one cursor, as built at the top of
`BatchIterator::next`. -/
def BatchState.headEntry (s : BatchState) : PrimitiveKind → Entry
  | .Shadow => (s.shadows.head?.map Shadow.order, .Shadow)
  | .Quad => (s.quads.head?.map Quad.order, .Quad)
  | .Path => (s.paths.head?.map Path.order, .Path)
  | .Underline => (s.underlines.head?.map Underline.order, .Underline)
  | .MonochromeSprite =>
    (s.monochrome_sprites.head?.map MonochromeSprite.order, .MonochromeSprite)
  | .PolychromeSprite =>
    (s.polychrome_sprites.head?.map PolychromeSprite.order, .PolychromeSprite)
  | .Surface => (s.surfaces.head?.map Surface.order, .Surface)

/-- The `orders_and_kinds` array of `BatchIterator::next`, in source order. -/
def BatchState.entries (s : BatchState) : List Entry :=
  [s.headEntry .Shadow, s.headEntry .Quad, s.headEntry .Path,
   s.headEntry .Underline, s.headEntry .MonochromeSprite,
   s.headEntry .PolychromeSprite, s.headEntry .Surface]

/-- `orders_and_kinds.sort_by_key(...)`: the seven entries sorted by
`(order.unwrap_or(u32::MAX), kind)`.  All seven keys are distinct (the kind
component is), so the sorted array does not depend on the sort algorithm. -/
def BatchState.sortedEntries (s : BatchState) : List Entry :=
  List.insertionSort entryLE s.entries

/-- `BatchIterator::next` from `scene.rs`.  `e1` is `orders_and_kinds[0]`
(the winner), `e2` is `orders_and_kinds[1]` (the ceiling).  The winner's
cursor is provably non-empty whenever `e1.1.isSome`, so the `[]` fallback
branches returning `none` are unreachable. -/
def BatchIterator.next (s : BatchState) : Option (PrimitiveBatch × BatchState) :=
  match s.sortedEntries with
  | e1 :: e2 :: _ =>
    if e1.1.isSome then
      match e1.2 with
      | PrimitiveKind.Shadow =>
        match s.shadows with
        | [] => none
        | h :: t =>
          some (PrimitiveBatch.Shadows
              (h :: t.takeWhile fun x => belowCeiling x.order PrimitiveKind.Shadow e2),
            { s with shadows :=
                t.dropWhile fun x => belowCeiling x.order PrimitiveKind.Shadow e2 })
      | PrimitiveKind.Quad =>
        match s.quads with
        | [] => none
        | h :: t =>
          some (PrimitiveBatch.Quads
              (h :: t.takeWhile fun x => belowCeiling x.order PrimitiveKind.Quad e2),
            { s with quads :=
                t.dropWhile fun x => belowCeiling x.order PrimitiveKind.Quad e2 })
      | PrimitiveKind.Path =>
        match s.paths with
        | [] => none
        | h :: t =>
          some (PrimitiveBatch.Paths
              (h :: t.takeWhile fun x => belowCeiling x.order PrimitiveKind.Path e2),
            { s with paths :=
                t.dropWhile fun x => belowCeiling x.order PrimitiveKind.Path e2 })
      | PrimitiveKind.Underline =>
        match s.underlines with
        | [] => none
        | h :: t =>
          some (PrimitiveBatch.Underlines
              (h :: t.takeWhile fun x =>
                belowCeiling x.order PrimitiveKind.Underline e2),
            { s with underlines :=
                t.dropWhile fun x => belowCeiling x.order PrimitiveKind.Underline e2 })
      | PrimitiveKind.MonochromeSprite =>
        match s.monochrome_sprites with
        | [] => none
        | h :: t =>
          some (PrimitiveBatch.MonochromeSprites h.tile.texture_id
              (h :: t.takeWhile fun x =>
                belowCeiling x.order PrimitiveKind.MonochromeSprite e2 &&
                  x.tile.texture_id == h.tile.texture_id),
            { s with monochrome_sprites :=
                t.dropWhile fun x =>
                  belowCeiling x.order PrimitiveKind.MonochromeSprite e2 &&
                    x.tile.texture_id == h.tile.texture_id })
      | PrimitiveKind.PolychromeSprite =>
        match s.polychrome_sprites with
        | [] => none
        | h :: t =>
          some (PrimitiveBatch.PolychromeSprites h.tile.texture_id
              (h :: t.takeWhile fun x =>
                belowCeiling x.order PrimitiveKind.PolychromeSprite e2 &&
                  x.tile.texture_id == h.tile.texture_id),
            { s with polychrome_sprites :=
                t.dropWhile fun x =>
                  belowCeiling x.order PrimitiveKind.PolychromeSprite e2 &&
                    x.tile.texture_id == h.tile.texture_id })
      | PrimitiveKind.Surface =>
        match s.surfaces with
        | [] => none
        | h :: t =>
          some (PrimitiveBatch.Surfaces
              (h :: t.takeWhile fun x => belowCeiling x.order PrimitiveKind.Surface e2),
            { s with surfaces :=
                t.dropWhile fun x => belowCeiling x.order PrimitiveKind.Surface e2 })
    else none
  | _ => none

/-- Total number of primitives still under the cursors. -/
def BatchState.size (s : BatchState) : Nat :=
  s.shadows.length + s.quads.length + s.paths.length + s.underlines.length +
    s.monochrome_sprites.length + s.polychrome_sprites.length +
    s.surfaces.length

/-- Fuelled drain of the batch iterator; every successful `next` consumes at
least one primitive, so fuel `s.size` always reaches the end. -/
def drainFuel : Nat → BatchState → List PrimitiveBatch
  | 0, _ => []
  | fuel + 1, s =>
    match BatchIterator.next s with
    | none => []
    | some (b, s') => b :: drainFuel fuel s'

/-- The full emitted batch sequence of `BatchIterator`. -/
def BatchState.drain (s : BatchState) : List PrimitiveBatch :=
  drainFuel s.size s

/-! ### Order infrastructure for the entry sort -/

theorem entryLE_refl (e : Entry) : entryLE e e := by
  rcases h : entryKey e with ⟨x1, x2, x3⟩
  simp only [entryLE, h, lex3Lt]
  omega

instance : IsTotal Entry entryLE where
  total a b := by
    rcases ha : entryKey a with ⟨x1, x2, x3⟩
    rcases hb : entryKey b with ⟨y1, y2, y3⟩
    simp only [entryLE, ha, hb, lex3Lt]
    omega

instance : IsTrans Entry entryLE where
  trans a b c hab hbc := by
    rcases ha : entryKey a with ⟨x1, x2, x3⟩
    rcases hb : entryKey b with ⟨y1, y2, y3⟩
    rcases hc : entryKey c with ⟨z1, z2, z3⟩
    simp only [entryLE, ha, hb, hc, lex3Lt] at hab hbc ⊢
    omega

theorem entryKey_rank (e : Entry) : (entryKey e).2.2 = e.2.rank := by
  rcases e with ⟨o, k⟩
  cases o <;> rfl

theorem rank_inj_all : ∀ a b : PrimitiveKind, a.rank = b.rank → a = b := by
  intro a b h
  cases a <;> cases b <;> simp_all [PrimitiveKind.rank]

theorem rank_inj {a b : PrimitiveKind} (h : a.rank = b.rank) : a = b :=
  rank_inj_all a b h

/-! ### The entry array -/

theorem headEntry_snd (s : BatchState) (k : PrimitiveKind) :
    (s.headEntry k).2 = k := by
  cases k <;> rfl

theorem headEntry_mem (s : BatchState) (k : PrimitiveKind) :
    s.headEntry k ∈ s.entries := by
  cases k <;> simp [BatchState.entries]

theorem mem_entries (s : BatchState) {e : Entry} (he : e ∈ s.entries) :
    e = s.headEntry e.2 := by
  simp only [BatchState.entries, List.mem_cons, List.not_mem_nil, or_false] at he
  rcases he with rfl | rfl | rfl | rfl | rfl | rfl | rfl <;> rw [headEntry_snd]

theorem entries_map_snd (s : BatchState) :
    s.entries.map Prod.snd = kindPriority := by
  simp [BatchState.entries, headEntry_snd, kindPriority]

theorem entries_nodup (s : BatchState) : s.entries.Nodup := by
  apply List.Nodup.of_map Prod.snd
  rw [entries_map_snd]
  decide

theorem sortedEntries_perm (s : BatchState) : s.sortedEntries.Perm s.entries :=
  List.perm_insertionSort entryLE s.entries

theorem sortedEntries_sorted (s : BatchState) :
    List.Sorted entryLE s.sortedEntries :=
  List.sorted_insertionSort entryLE s.entries

theorem sortedEntries_nodup (s : BatchState) : s.sortedEntries.Nodup :=
  (sortedEntries_perm s).nodup_iff.mpr (entries_nodup s)

theorem sortedEntries_shape (s : BatchState) :
    ∃ e1 e2 r, s.sortedEntries = e1 :: e2 :: r := by
  have hl : s.sortedEntries.length = 7 := by
    rw [(sortedEntries_perm s).length_eq]
    rfl
  cases h1 : s.sortedEntries with
  | nil => rw [h1] at hl; simp at hl
  | cons e1 t =>
    cases h2 : t with
    | nil => rw [h1, h2] at hl; simp at hl
    | cons e2 r =>
      subst h2
      exact ⟨e1, e2, r, rfl⟩

theorem first_le {s : BatchState} {e1 e2 : Entry} {r : List Entry}
    (hs : s.sortedEntries = e1 :: e2 :: r) :
    ∀ e ∈ s.entries, entryLE e1 e := by
  intro e he
  have hmem : e ∈ s.sortedEntries := (sortedEntries_perm s).mem_iff.mpr he
  have hsort := sortedEntries_sorted s
  rw [hs] at hmem hsort
  rcases List.mem_cons.mp hmem with rfl | hmem2
  · exact entryLE_refl e
  · exact (List.sorted_cons.mp hsort).1 e hmem2

theorem second_le {s : BatchState} {e1 e2 : Entry} {r : List Entry}
    (hs : s.sortedEntries = e1 :: e2 :: r) :
    ∀ e ∈ s.entries, e ≠ e1 → entryLE e2 e := by
  intro e he hne
  have hmem : e ∈ s.sortedEntries := (sortedEntries_perm s).mem_iff.mpr he
  have hsort := sortedEntries_sorted s
  rw [hs] at hmem hsort
  rcases List.mem_cons.mp hmem with rfl | hmem2
  · exact absurd rfl hne
  · rcases List.mem_cons.mp hmem2 with rfl | hmem3
    · exact entryLE_refl e
    · exact (List.sorted_cons.mp (List.sorted_cons.mp hsort).2).1 e hmem3

theorem first_mem {s : BatchState} {e1 e2 : Entry} {r : List Entry}
    (hs : s.sortedEntries = e1 :: e2 :: r) : e1 ∈ s.entries := by
  have : e1 ∈ s.sortedEntries := by rw [hs]; exact List.mem_cons_self e1 _
  exact (sortedEntries_perm s).mem_iff.mp this

theorem second_mem {s : BatchState} {e1 e2 : Entry} {r : List Entry}
    (hs : s.sortedEntries = e1 :: e2 :: r) : e2 ∈ s.entries := by
  have : e2 ∈ s.sortedEntries := by
    rw [hs]
    exact List.mem_cons_of_mem e1 (List.mem_cons_self e2 r)
  exact (sortedEntries_perm s).mem_iff.mp this

theorem first_ne_second {s : BatchState} {e1 e2 : Entry} {r : List Entry}
    (hs : s.sortedEntries = e1 :: e2 :: r) : e1 ≠ e2 := by
  have hnd := sortedEntries_nodup s
  rw [hs] at hnd
  intro h
  exact (List.nodup_cons.mp hnd).1 (h ▸ List.mem_cons_self e2 r)

/-- If the minimal entry has an exhausted cursor, every cursor is exhausted. -/
theorem first_none_all_empty {s : BatchState} {e1 e2 : Entry} {r : List Entry}
    (hs : s.sortedEntries = e1 :: e2 :: r) (hn : e1.1 = none) :
    s.shadows = [] ∧ s.quads = [] ∧ s.paths = [] ∧ s.underlines = [] ∧
      s.monochrome_sprites = [] ∧ s.polychrome_sprites = [] ∧ s.surfaces = [] := by
  have hmin := first_le hs
  have key1 : entryKey e1 = (1, 0, e1.2.rank) := by
    rcases e1 with ⟨o, k⟩
    cases hn
    rfl
  have live : ∀ (o : Nat) (k : PrimitiveKind), ¬ entryLE e1 (some o, k) := by
    intro o k h
    have ek : entryKey (some o, k) = (0, o, k.rank) := rfl
    simp only [entryLE, ek, key1, lex3Lt] at h
    omega
  refine ⟨?_, ?_, ?_, ?_, ?_, ?_, ?_⟩ <;>
    first
    | { cases hl : s.shadows with
        | nil => rfl
        | cons h t =>
          exfalso
          have := hmin (s.headEntry .Shadow) (headEntry_mem s .Shadow)
          rw [BatchState.headEntry, hl] at this
          exact live _ _ this }
    | { cases hl : s.quads with
        | nil => rfl
        | cons h t =>
          exfalso
          have := hmin (s.headEntry .Quad) (headEntry_mem s .Quad)
          rw [BatchState.headEntry, hl] at this
          exact live _ _ this }
    | { cases hl : s.paths with
        | nil => rfl
        | cons h t =>
          exfalso
          have := hmin (s.headEntry .Path) (headEntry_mem s .Path)
          rw [BatchState.headEntry, hl] at this
          exact live _ _ this }
    | { cases hl : s.underlines with
        | nil => rfl
        | cons h t =>
          exfalso
          have := hmin (s.headEntry .Underline) (headEntry_mem s .Underline)
          rw [BatchState.headEntry, hl] at this
          exact live _ _ this }
    | { cases hl : s.monochrome_sprites with
        | nil => rfl
        | cons h t =>
          exfalso
          have := hmin (s.headEntry .MonochromeSprite)
            (headEntry_mem s .MonochromeSprite)
          rw [BatchState.headEntry, hl] at this
          exact live _ _ this }
    | { cases hl : s.polychrome_sprites with
        | nil => rfl
        | cons h t =>
          exfalso
          have := hmin (s.headEntry .PolychromeSprite)
            (headEntry_mem s .PolychromeSprite)
          rw [BatchState.headEntry, hl] at this
          exact live _ _ this }
    | { cases hl : s.surfaces with
        | nil => rfl
        | cons h t =>
          exfalso
          have := hmin (s.headEntry .Surface) (headEntry_mem s .Surface)
          rw [BatchState.headEntry, hl] at this
          exact live _ _ this }

/-! ### Characterizing one step of the merge -/

/-- The shadow items of a batch (empty for other kinds). -/
def shadowsOf : PrimitiveBatch → List Shadow
  | .Shadows l => l
  | _ => []

/-- The quad items of a batch (empty for other kinds). -/
def quadsOf : PrimitiveBatch → List Quad
  | .Quads l => l
  | _ => []

/-- The path items of a batch (empty for other kinds). -/
def pathsOf : PrimitiveBatch → List Path
  | .Paths l => l
  | _ => []

/-- The underline items of a batch (empty for other kinds). -/
def underlinesOf : PrimitiveBatch → List Underline
  | .Underlines l => l
  | _ => []

/-- The monochrome-sprite items of a batch (empty for other kinds). -/
def monosOf : PrimitiveBatch → List MonochromeSprite
  | .MonochromeSprites _ l => l
  | _ => []

/-- The polychrome-sprite items of a batch (empty for other kinds). -/
def polysOf : PrimitiveBatch → List PolychromeSprite
  | .PolychromeSprites _ l => l
  | _ => []

/-- The surface items of a batch (empty for other kinds). -/
def surfacesOf : PrimitiveBatch → List Surface
  | .Surfaces l => l
  | _ => []

/-- When `next` is exhausted every cursor is empty. -/
theorem next_none {s : BatchState} (h : BatchIterator.next s = none) :
    s.shadows = [] ∧ s.quads = [] ∧ s.paths = [] ∧ s.underlines = [] ∧
      s.monochrome_sprites = [] ∧ s.polychrome_sprites = [] ∧
      s.surfaces = [] := by
  obtain ⟨e1, e2, r, hs⟩ := sortedEntries_shape s
  have he1 : e1 = s.headEntry e1.2 := mem_entries s (first_mem hs)
  unfold BatchIterator.next at h
  rw [hs] at h
  dsimp only at h
  by_cases hsome : e1.1.isSome
  · rw [if_pos hsome] at h
    exfalso
    cases hk : e1.2 <;> rw [hk] at h he1 <;>
      simp only [BatchState.headEntry] at he1 <;>
      first
      | (cases hl : s.shadows with
         | nil => rw [hl] at he1; rw [he1] at hsome; simp at hsome
         | cons hd tl => rw [hl] at h; simp at h)
      | (cases hl : s.quads with
         | nil => rw [hl] at he1; rw [he1] at hsome; simp at hsome
         | cons hd tl => rw [hl] at h; simp at h)
      | (cases hl : s.paths with
         | nil => rw [hl] at he1; rw [he1] at hsome; simp at hsome
         | cons hd tl => rw [hl] at h; simp at h)
      | (cases hl : s.underlines with
         | nil => rw [hl] at he1; rw [he1] at hsome; simp at hsome
         | cons hd tl => rw [hl] at h; simp at h)
      | (cases hl : s.monochrome_sprites with
         | nil => rw [hl] at he1; rw [he1] at hsome; simp at hsome
         | cons hd tl => rw [hl] at h; simp at h)
      | (cases hl : s.polychrome_sprites with
         | nil => rw [hl] at he1; rw [he1] at hsome; simp at hsome
         | cons hd tl => rw [hl] at h; simp at h)
      | (cases hl : s.surfaces with
         | nil => rw [hl] at he1; rw [he1] at hsome; simp at hsome
         | cons hd tl => rw [hl] at h; simp at h)
  · exact first_none_all_empty hs (Option.not_isSome_iff_eq_none.mp hsome)

/-- Complete characterization of a successful `next` step: the winner is the
head kind of the sorted entry array, one kind list splits into a non-empty
consumed run and a remainder, and all other cursors are untouched. -/
theorem next_some {s : BatchState} {b : PrimitiveBatch} {s' : BatchState}
    (h : BatchIterator.next s = some (b, s')) :
    ∃ e1 e2 r, s.sortedEntries = e1 :: e2 :: r ∧ e1.1.isSome = true ∧
      ((∃ hd tl, e1.2 = PrimitiveKind.Shadow ∧ s.shadows = hd :: tl ∧
          b = PrimitiveBatch.Shadows
            (hd :: tl.takeWhile fun x =>
              belowCeiling x.order PrimitiveKind.Shadow e2) ∧
          s' = { s with shadows := tl.dropWhile fun x =>
            belowCeiling x.order PrimitiveKind.Shadow e2 }) ∨
       (∃ hd tl, e1.2 = PrimitiveKind.Quad ∧ s.quads = hd :: tl ∧
          b = PrimitiveBatch.Quads
            (hd :: tl.takeWhile fun x =>
              belowCeiling x.order PrimitiveKind.Quad e2) ∧
          s' = { s with quads := tl.dropWhile fun x =>
            belowCeiling x.order PrimitiveKind.Quad e2 }) ∨
       (∃ hd tl, e1.2 = PrimitiveKind.Path ∧ s.paths = hd :: tl ∧
          b = PrimitiveBatch.Paths
            (hd :: tl.takeWhile fun x =>
              belowCeiling x.order PrimitiveKind.Path e2) ∧
          s' = { s with paths := tl.dropWhile fun x =>
            belowCeiling x.order PrimitiveKind.Path e2 }) ∨
       (∃ hd tl, e1.2 = PrimitiveKind.Underline ∧ s.underlines = hd :: tl ∧
          b = PrimitiveBatch.Underlines
            (hd :: tl.takeWhile fun x =>
              belowCeiling x.order PrimitiveKind.Underline e2) ∧
          s' = { s with underlines := tl.dropWhile fun x =>
            belowCeiling x.order PrimitiveKind.Underline e2 }) ∨
       (∃ hd tl, e1.2 = PrimitiveKind.MonochromeSprite ∧
          s.monochrome_sprites = hd :: tl ∧
          b = PrimitiveBatch.MonochromeSprites hd.tile.texture_id
            (hd :: tl.takeWhile fun x =>
              belowCeiling x.order PrimitiveKind.MonochromeSprite e2 &&
                x.tile.texture_id == hd.tile.texture_id) ∧
          s' = { s with monochrome_sprites := tl.dropWhile fun x =>
            belowCeiling x.order PrimitiveKind.MonochromeSprite e2 &&
              x.tile.texture_id == hd.tile.texture_id }) ∨
       (∃ hd tl, e1.2 = PrimitiveKind.PolychromeSprite ∧
          s.polychrome_sprites = hd :: tl ∧
          b = PrimitiveBatch.PolychromeSprites hd.tile.texture_id
            (hd :: tl.takeWhile fun x =>
              belowCeiling x.order PrimitiveKind.PolychromeSprite e2 &&
                x.tile.texture_id == hd.tile.texture_id) ∧
          s' = { s with polychrome_sprites := tl.dropWhile fun x =>
            belowCeiling x.order PrimitiveKind.PolychromeSprite e2 &&
              x.tile.texture_id == hd.tile.texture_id }) ∨
       (∃ hd tl, e1.2 = PrimitiveKind.Surface ∧ s.surfaces = hd :: tl ∧
          b = PrimitiveBatch.Surfaces
            (hd :: tl.takeWhile fun x =>
              belowCeiling x.order PrimitiveKind.Surface e2) ∧
          s' = { s with surfaces := tl.dropWhile fun x =>
            belowCeiling x.order PrimitiveKind.Surface e2 })) := by
  obtain ⟨e1, e2, r, hs⟩ := sortedEntries_shape s
  refine ⟨e1, e2, r, hs, ?_⟩
  unfold BatchIterator.next at h
  rw [hs] at h
  dsimp only at h
  by_cases hsome : e1.1.isSome
  · rw [if_pos hsome] at h
    refine ⟨hsome, ?_⟩
    cases hk : e1.2 with
    | Shadow =>
      rw [hk] at h
      cases hl : s.shadows with
      | nil => rw [hl] at h; simp at h
      | cons hd tl =>
        rw [hl] at h
        dsimp only at h
        rw [Option.some.injEq, Prod.mk.injEq] at h
        exact Or.inl ⟨hd, tl, rfl, rfl, h.1.symm, h.2.symm⟩
    | Quad =>
      rw [hk] at h
      cases hl : s.quads with
      | nil => rw [hl] at h; simp at h
      | cons hd tl =>
        rw [hl] at h
        dsimp only at h
        rw [Option.some.injEq, Prod.mk.injEq] at h
        exact Or.inr (Or.inl ⟨hd, tl, rfl, rfl, h.1.symm, h.2.symm⟩)
    | Path =>
      rw [hk] at h
      cases hl : s.paths with
      | nil => rw [hl] at h; simp at h
      | cons hd tl =>
        rw [hl] at h
        dsimp only at h
        rw [Option.some.injEq, Prod.mk.injEq] at h
        exact Or.inr (Or.inr (Or.inl ⟨hd, tl, rfl, rfl, h.1.symm, h.2.symm⟩))
    | Underline =>
      rw [hk] at h
      cases hl : s.underlines with
      | nil => rw [hl] at h; simp at h
      | cons hd tl =>
        rw [hl] at h
        dsimp only at h
        rw [Option.some.injEq, Prod.mk.injEq] at h
        exact Or.inr (Or.inr (Or.inr (Or.inl ⟨hd, tl, rfl, rfl, h.1.symm, h.2.symm⟩)))
    | MonochromeSprite =>
      rw [hk] at h
      cases hl : s.monochrome_sprites with
      | nil => rw [hl] at h; simp at h
      | cons hd tl =>
        rw [hl] at h
        dsimp only at h
        rw [Option.some.injEq, Prod.mk.injEq] at h
        exact Or.inr (Or.inr (Or.inr (Or.inr (Or.inl
          ⟨hd, tl, rfl, rfl, h.1.symm, h.2.symm⟩))))
    | PolychromeSprite =>
      rw [hk] at h
      cases hl : s.polychrome_sprites with
      | nil => rw [hl] at h; simp at h
      | cons hd tl =>
        rw [hl] at h
        dsimp only at h
        rw [Option.some.injEq, Prod.mk.injEq] at h
        exact Or.inr (Or.inr (Or.inr (Or.inr (Or.inr (Or.inl
          ⟨hd, tl, rfl, rfl, h.1.symm, h.2.symm⟩)))))
    | Surface =>
      rw [hk] at h
      cases hl : s.surfaces with
      | nil => rw [hl] at h; simp at h
      | cons hd tl =>
        rw [hl] at h
        dsimp only at h
        rw [Option.some.injEq, Prod.mk.injEq] at h
        exact Or.inr (Or.inr (Or.inr (Or.inr (Or.inr (Or.inr
          ⟨hd, tl, rfl, rfl, h.1.symm, h.2.symm⟩)))))
  · rw [if_neg hsome] at h
    simp at h

theorem length_dropWhile_le_len {α : Type} (p : α → Bool) (l : List α) :
    (l.dropWhile p).length ≤ l.length :=
  (List.dropWhile_sublist p).length_le

/-- Every successful merge step consumes at least one primitive. -/
theorem next_size {s : BatchState} {b : PrimitiveBatch} {s' : BatchState}
    (h : BatchIterator.next s = some (b, s')) : s'.size < s.size := by
  obtain ⟨e1, e2, r, hs, hsome, hc⟩ := next_some h
  rcases hc with ⟨hd, tl, hk, hl, hb, rfl⟩ | ⟨hd, tl, hk, hl, hb, rfl⟩ |
    ⟨hd, tl, hk, hl, hb, rfl⟩ | ⟨hd, tl, hk, hl, hb, rfl⟩ |
    ⟨hd, tl, hk, hl, hb, rfl⟩ | ⟨hd, tl, hk, hl, hb, rfl⟩ |
    ⟨hd, tl, hk, hl, hb, rfl⟩
  · have hle := length_dropWhile_le_len
      (fun x => belowCeiling x.order PrimitiveKind.Shadow e2) tl
    simp [BatchState.size, hl]
    omega
  · have hle := length_dropWhile_le_len
      (fun x => belowCeiling x.order PrimitiveKind.Quad e2) tl
    simp [BatchState.size, hl]
    omega
  · have hle := length_dropWhile_le_len
      (fun x => belowCeiling x.order PrimitiveKind.Path e2) tl
    simp [BatchState.size, hl]
    omega
  · have hle := length_dropWhile_le_len
      (fun x => belowCeiling x.order PrimitiveKind.Underline e2) tl
    simp [BatchState.size, hl]
    omega
  · have hle := length_dropWhile_le_len
      (fun x => belowCeiling x.order PrimitiveKind.MonochromeSprite e2 &&
        x.tile.texture_id == hd.tile.texture_id) tl
    simp [BatchState.size, hl]
    omega
  · have hle := length_dropWhile_le_len
      (fun x => belowCeiling x.order PrimitiveKind.PolychromeSprite e2 &&
        x.tile.texture_id == hd.tile.texture_id) tl
    simp [BatchState.size, hl]
    omega
  · have hle := length_dropWhile_le_len
      (fun x => belowCeiling x.order PrimitiveKind.Surface e2) tl
    simp [BatchState.size, hl]
    omega

/-- Core partition property of the drained batch sequence: per kind, the
concatenation of the emitted runs is exactly the kind list under the
cursors. -/
theorem drainFuel_flat :
    ∀ (fuel : Nat) (s : BatchState), s.size ≤ fuel →
      ((drainFuel fuel s).map shadowsOf).flatten = s.shadows ∧
      ((drainFuel fuel s).map quadsOf).flatten = s.quads ∧
      ((drainFuel fuel s).map pathsOf).flatten = s.paths ∧
      ((drainFuel fuel s).map underlinesOf).flatten = s.underlines ∧
      ((drainFuel fuel s).map monosOf).flatten = s.monochrome_sprites ∧
      ((drainFuel fuel s).map polysOf).flatten = s.polychrome_sprites ∧
      ((drainFuel fuel s).map surfacesOf).flatten = s.surfaces := by
  intro fuel
  induction fuel with
  | zero =>
    intro s hsz
    have h0 : s.size = 0 := Nat.le_zero.mp hsz
    simp only [BatchState.size] at h0
    have g1 : s.shadows = [] := List.length_eq_zero.mp (by omega)
    have g2 : s.quads = [] := List.length_eq_zero.mp (by omega)
    have g3 : s.paths = [] := List.length_eq_zero.mp (by omega)
    have g4 : s.underlines = [] := List.length_eq_zero.mp (by omega)
    have g5 : s.monochrome_sprites = [] := List.length_eq_zero.mp (by omega)
    have g6 : s.polychrome_sprites = [] := List.length_eq_zero.mp (by omega)
    have g7 : s.surfaces = [] := List.length_eq_zero.mp (by omega)
    simp [drainFuel, g1, g2, g3, g4, g5, g6, g7]
  | succ fuel ih =>
    intro s hsz
    cases hnext : BatchIterator.next s with
    | none =>
      obtain ⟨h1, h2, h3, h4, h5, h6, h7⟩ := next_none hnext
      simp [drainFuel, hnext, h1, h2, h3, h4, h5, h6, h7]
    | some p =>
      obtain ⟨b, s'⟩ := p
      have hlt := next_size hnext
      have hsz' : s'.size ≤ fuel := by omega
      obtain ⟨i1, i2, i3, i4, i5, i6, i7⟩ := ih s' hsz'
      obtain ⟨e1, e2, r, hs, hsome, hc⟩ := next_some hnext
      simp only [drainFuel, hnext, List.map_cons, List.flatten_cons]
      rcases hc with ⟨hd, tl, hk, hl, rfl, rfl⟩ | ⟨hd, tl, hk, hl, rfl, rfl⟩ |
        ⟨hd, tl, hk, hl, rfl, rfl⟩ | ⟨hd, tl, hk, hl, rfl, rfl⟩ |
        ⟨hd, tl, hk, hl, rfl, rfl⟩ | ⟨hd, tl, hk, hl, rfl, rfl⟩ |
        ⟨hd, tl, hk, hl, rfl, rfl⟩ <;>
        refine ⟨?_, ?_, ?_, ?_, ?_, ?_, ?_⟩ <;>
        simp_all [shadowsOf, quadsOf, pathsOf, underlinesOf, monosOf, polysOf,
          surfacesOf, List.takeWhile_append_dropWhile]

/-! ### Scene-level accounting -/

/-- Number of primitives referenced by one batch. -/
def batchLen : PrimitiveBatch → Nat
  | .Shadows l => l.length
  | .Quads l => l.length
  | .Paths l => l.length
  | .Underlines l => l.length
  | .MonochromeSprites _ l => l.length
  | .PolychromeSprites _ l => l.length
  | .Surfaces l => l.length

/-- The push-survival test of `Scene::push`: the clipped bounds have
strictly positive width and height. -/
def survives (p : Primitive) : Bool :=
  decide (¬ ((p.bounds.intersect p.content_mask.bounds).size.width ≤ 0 ∨
    (p.bounds.intersect p.content_mask.bounds).size.height ≤ 0))

/-- Total number of primitives across the seven kind lists. -/
def sceneSum (s : Scene) : Nat :=
  s.shadows.length + s.quads.length + s.paths.length + s.underlines.length +
    s.monochrome_sprites.length + s.polychrome_sprites.length +
    s.surfaces.length

theorem batchLen_split (b : PrimitiveBatch) :
    batchLen b = (shadowsOf b).length + (quadsOf b).length +
      (pathsOf b).length + (underlinesOf b).length + (monosOf b).length +
      (polysOf b).length + (surfacesOf b).length := by
  cases b <;> simp [batchLen, shadowsOf, quadsOf, pathsOf, underlinesOf,
    monosOf, polysOf, surfacesOf]

theorem drainCount_eq (l : List PrimitiveBatch) :
    (l.map batchLen).sum =
      ((l.map shadowsOf).flatten).length + ((l.map quadsOf).flatten).length +
        ((l.map pathsOf).flatten).length +
        ((l.map underlinesOf).flatten).length +
        ((l.map monosOf).flatten).length + ((l.map polysOf).flatten).length +
        ((l.map surfacesOf).flatten).length := by
  induction l with
  | nil => simp
  | cons b t ih =>
    have hb := batchLen_split b
    simp only [List.map_cons, List.flatten_cons, List.length_append,
      List.sum_cons, ih]
    omega

theorem push_sum (s : Scene) (p : Primitive) :
    sceneSum (s.push p) = sceneSum s + (if survives p then 1 else 0) := by
  unfold Scene.push survives
  by_cases hdeg : (p.bounds.intersect p.content_mask.bounds).size.width ≤ 0 ∨
      (p.bounds.intersect p.content_mask.bounds).size.height ≤ 0
  · simp [hdeg]
  · cases p <;> simp [sceneSum, hdeg] <;> omega

theorem push_len (s : Scene) (p : Primitive) :
    (s.push p).len = s.len + (if survives p then 1 else 0) := by
  unfold Scene.push Scene.len survives
  by_cases hdeg : (p.bounds.intersect p.content_mask.bounds).size.width ≤ 0 ∨
      (p.bounds.intersect p.content_mask.bounds).size.height ≤ 0
  · simp [hdeg]
  · cases p <;> simp [hdeg]

theorem push_fold_sum :
    ∀ (ps : List Primitive) (s : Scene),
      sceneSum (ps.foldl Scene.push s) =
        sceneSum s + (ps.filter survives).length := by
  intro ps
  induction ps with
  | nil => intro s; simp
  | cons p t ih =>
    intro s
    rw [List.foldl_cons, ih (s.push p), push_sum]
    cases hp : survives p <;> simp [List.filter_cons, hp] <;> omega

theorem finish_sum (s : Scene) : sceneSum s.finish = sceneSum s := by
  simp [sceneSum, Scene.finish, (List.perm_insertionSort shadowLE s.shadows).length_eq,
    (List.perm_insertionSort quadLE s.quads).length_eq,
    (List.perm_insertionSort pathLE s.paths).length_eq,
    (List.perm_insertionSort underlineLE s.underlines).length_eq,
    (List.perm_insertionSort monoLE s.monochrome_sprites).length_eq,
    (List.perm_insertionSort polyLE s.polychrome_sprites).length_eq,
    (List.perm_insertionSort surfaceLE s.surfaces).length_eq]

/-- **C1**: for every sequence of `push` calls followed by `finish()`, fully
draining `batches()` visits exactly the primitives stored by pushes whose
clipped bounds had strictly positive width and height, each exactly once:
per kind, concatenating the yielded runs in emission order reproduces that
kind's finish-sorted list, and the total item count over all batches equals
the number of surviving pushes. -/
theorem C1_batches_partition (ps : List Primitive) :
    let sc := Scene.finish (List.foldl Scene.push Scene.empty ps)
    let bs := sc.batches.drain
    ((bs.map shadowsOf).flatten = sc.shadows ∧
     (bs.map quadsOf).flatten = sc.quads ∧
     (bs.map pathsOf).flatten = sc.paths ∧
     (bs.map underlinesOf).flatten = sc.underlines ∧
     (bs.map monosOf).flatten = sc.monochrome_sprites ∧
     (bs.map polysOf).flatten = sc.polychrome_sprites ∧
     (bs.map surfacesOf).flatten = sc.surfaces) ∧
    (bs.map batchLen).sum = (ps.filter survives).length := by
  intro sc bs
  obtain ⟨h1, h2, h3, h4, h5, h6, h7⟩ :=
    drainFuel_flat sc.batches.size sc.batches (le_refl _)
  have g1 : (bs.map shadowsOf).flatten = sc.shadows := h1
  have g2 : (bs.map quadsOf).flatten = sc.quads := h2
  have g3 : (bs.map pathsOf).flatten = sc.paths := h3
  have g4 : (bs.map underlinesOf).flatten = sc.underlines := h4
  have g5 : (bs.map monosOf).flatten = sc.monochrome_sprites := h5
  have g6 : (bs.map polysOf).flatten = sc.polychrome_sprites := h6
  have g7 : (bs.map surfacesOf).flatten = sc.surfaces := h7
  refine ⟨⟨g1, g2, g3, g4, g5, g6, g7⟩, ?_⟩
  rw [drainCount_eq bs, g1, g2, g3, g4, g5, g6, g7]
  have hsum : sceneSum sc = (ps.filter survives).length := by
    calc sceneSum sc
        = sceneSum (List.foldl Scene.push Scene.empty ps) :=
          finish_sum (List.foldl Scene.push Scene.empty ps)
      _ = sceneSum Scene.empty + (ps.filter survives).length :=
          push_fold_sum ps Scene.empty
      _ = (ps.filter survives).length := by simp [sceneSum, Scene.empty]
  simpa [sceneSum] using hsum

/-- Reachability alphabet for the store: a push or a clear. -/
inductive SceneOp where
  | push (p : Primitive)
  | clear

/-- Apply one store operation. -/
def applyOp (s : Scene) : SceneOp → Scene
  | .push p => s.push p
  | .clear => s.clear

theorem len_eq_sum_fold :
    ∀ (ops : List SceneOp) (s : Scene), s.len = sceneSum s →
      (ops.foldl applyOp s).len = sceneSum (ops.foldl applyOp s) := by
  intro ops
  induction ops with
  | nil => intro s h; exact h
  | cons op t ih =>
    intro s h
    rw [List.foldl_cons]
    apply ih
    cases op with
    | push p =>
      show (s.push p).len = sceneSum (s.push p)
      rw [push_len, push_sum, h]
    | clear =>
      show (Scene.clear s).len = sceneSum (Scene.clear s)
      simp [Scene.clear, Scene.empty, Scene.len, sceneSum]

/-- **C9**: every Scene reachable by any sequence of `push` and `clear`
calls satisfies `len()` equal to the sum of the lengths of the seven kind
lists — each surviving push appends one element to `primitives` and one to
exactly one kind list, and `clear` empties all of them. -/
theorem C9_len_invariant (ops : List SceneOp) :
    (ops.foldl applyOp Scene.empty).len =
      sceneSum (ops.foldl applyOp Scene.empty) :=
  len_eq_sum_fold ops Scene.empty (by simp [Scene.len, sceneSum, Scene.empty])

/-! ### No two adjacent batches share a discriminator -/

/-- The kind of a batch. -/
def PrimitiveBatch.kind : PrimitiveBatch → PrimitiveKind
  | .Shadows _ => .Shadow
  | .Quads _ => .Quad
  | .Paths _ => .Path
  | .Underlines _ => .Underline
  | .MonochromeSprites _ _ => .MonochromeSprite
  | .PolychromeSprites _ _ => .PolychromeSprite
  | .Surfaces _ => .Surface

/-- The shared texture id of a sprite batch, `none` for other kinds. -/
def PrimitiveBatch.textureId : PrimitiveBatch → Option Nat
  | .MonochromeSprites t _ => some t
  | .PolychromeSprites t _ => some t
  | _ => none

/-- The merge discriminator of a batch: its kind, plus the texture id for
sprite batches. -/
def discriminator (b : PrimitiveBatch) : PrimitiveKind × Option Nat :=
  (b.kind, b.textureId)

theorem dropWhile_head_false {α : Type} (p : α → Bool) :
    ∀ (l : List α) {y : α} {ys : List α}, l.dropWhile p = y :: ys →
      p y = false := by
  intro l
  induction l with
  | nil => intro y ys h; simp [List.dropWhile] at h
  | cons a t ih =>
    intro y ys h
    rw [List.dropWhile_cons] at h
    by_cases hp : p a
    · rw [if_pos hp] at h
      exact ih h
    · rw [if_neg hp] at h
      cases h
      exact Bool.of_not_eq_true hp

theorem headEntry_set_shadows (s : BatchState) (X : List Shadow)
    {k : PrimitiveKind} (hk : k ≠ PrimitiveKind.Shadow) :
    BatchState.headEntry { s with shadows := X } k = s.headEntry k := by
  cases k <;> first | exact absurd rfl hk | rfl

theorem headEntry_set_quads (s : BatchState) (X : List Quad)
    {k : PrimitiveKind} (hk : k ≠ PrimitiveKind.Quad) :
    BatchState.headEntry { s with quads := X } k = s.headEntry k := by
  cases k <;> first | exact absurd rfl hk | rfl

theorem headEntry_set_paths (s : BatchState) (X : List Path)
    {k : PrimitiveKind} (hk : k ≠ PrimitiveKind.Path) :
    BatchState.headEntry { s with paths := X } k = s.headEntry k := by
  cases k <;> first | exact absurd rfl hk | rfl

theorem headEntry_set_underlines (s : BatchState) (X : List Underline)
    {k : PrimitiveKind} (hk : k ≠ PrimitiveKind.Underline) :
    BatchState.headEntry { s with underlines := X } k = s.headEntry k := by
  cases k <;> first | exact absurd rfl hk | rfl

theorem headEntry_set_monos (s : BatchState) (X : List MonochromeSprite)
    {k : PrimitiveKind} (hk : k ≠ PrimitiveKind.MonochromeSprite) :
    BatchState.headEntry { s with monochrome_sprites := X } k = s.headEntry k := by
  cases k <;> first | exact absurd rfl hk | rfl

theorem headEntry_set_polys (s : BatchState) (X : List PolychromeSprite)
    {k : PrimitiveKind} (hk : k ≠ PrimitiveKind.PolychromeSprite) :
    BatchState.headEntry { s with polychrome_sprites := X } k = s.headEntry k := by
  cases k <;> first | exact absurd rfl hk | rfl

theorem headEntry_set_surfaces (s : BatchState) (X : List Surface)
    {k : PrimitiveKind} (hk : k ≠ PrimitiveKind.Surface) :
    BatchState.headEntry { s with surfaces := X } k = s.headEntry k := by
  cases k <;> first | exact absurd rfl hk | rfl

/-- Core of the maximality argument: if, after a step that consumed kind `k`
up to the old ceiling entry `e2`, the new head of kind `k` fails the plain
ceiling test against `e2`, and `e2` (of a different kind) is still an entry,
then the following step cannot again select kind `k`. -/
theorem ceiling_blocks {s' : BatchState} {e2 : Entry} {k : PrimitiveKind}
    {o2 : Nat} (hmem2 : e2 ∈ s'.entries) (hk2 : e2.2 ≠ k)
    (hhead : s'.headEntry k = (some o2, k))
    (hfail : belowCeiling o2 k e2 = false) :
    ∀ e1' e2' r', s'.sortedEntries = e1' :: e2' :: r' → e1'.2 ≠ k := by
  intro e1' e2' r' hs' hwin
  have hmin := first_le hs' e2 hmem2
  have he1' : e1' = s'.headEntry e1'.2 := mem_entries s' (first_mem hs')
  rw [hwin, hhead] at he1'
  have hkey1 : entryKey e1' = (0, o2, k.rank) := by rw [he1']; rfl
  have hfail2 : ¬ lex3Lt (0, o2, k.rank) (entryKey e2) := by
    simpa [belowCeiling] using hfail
  have hmin2 : ¬ lex3Lt (entryKey e2) (0, o2, k.rank) := by
    simpa [entryLE, hkey1] using hmin
  have hkeq : entryKey e2 = (0, o2, k.rank) := by
    rcases hke : entryKey e2 with ⟨x1, x2, x3⟩
    rw [hke] at hfail2 hmin2
    simp only [lex3Lt] at hfail2 hmin2
    obtain ⟨ha, hb, hc⟩ : x1 = 0 ∧ x2 = o2 ∧ x3 = k.rank := by omega
    subst ha
    subst hb
    subst hc
    rfl
  have hkk : e2.2 = k := by
    have hr := entryKey_rank e2
    rw [hkeq] at hr
    exact rank_inj hr.symm
  exact hk2 hkk

/-- Two consecutive emitted batches never share a discriminator. -/
theorem no_adjacent_merge {s s' s'' : BatchState} {b b2 : PrimitiveBatch}
    (h1 : BatchIterator.next s = some (b, s'))
    (h2 : BatchIterator.next s' = some (b2, s'')) :
    discriminator b ≠ discriminator b2 := by
  intro hdisc
  obtain ⟨e1, e2, r, hs, hsome, hc⟩ := next_some h1
  obtain ⟨e1x, e2x, rx, hsx, hsomex, hcx⟩ := next_some h2
  rcases hc with ⟨a1, t1, hk1, hl1, rfl, rfl⟩ | ⟨a1, t1, hk1, hl1, rfl, rfl⟩ |
    ⟨a1, t1, hk1, hl1, rfl, rfl⟩ | ⟨a1, t1, hk1, hl1, rfl, rfl⟩ |
    ⟨a1, t1, hk1, hl1, rfl, rfl⟩ | ⟨a1, t1, hk1, hl1, rfl, rfl⟩ |
    ⟨a1, t1, hk1, hl1, rfl, rfl⟩ <;>
  rcases hcx with ⟨a2, t2, hk2x, hl2, rfl, rfl⟩ | ⟨a2, t2, hk2x, hl2, rfl, rfl⟩ |
    ⟨a2, t2, hk2x, hl2, rfl, rfl⟩ | ⟨a2, t2, hk2x, hl2, rfl, rfl⟩ |
    ⟨a2, t2, hk2x, hl2, rfl, rfl⟩ | ⟨a2, t2, hk2x, hl2, rfl, rfl⟩ |
    ⟨a2, t2, hk2x, hl2, rfl, rfl⟩
  all_goals
    simp only [discriminator, PrimitiveBatch.kind, PrimitiveBatch.textureId,
      Prod.mk.injEq, Option.some.injEq, and_true, true_and, reduceCtorEq,
      and_false, false_and] at hdisc
  · -- same-kind Shadow case
    set p := (fun x : Shadow => belowCeiling x.order PrimitiveKind.Shadow e2) with hp
    set X := t1.dropWhile p with hX
    have hdw : X = a2 :: t2 := hl2
    have hdw2 : t1.dropWhile p = a2 :: t2 := hX ▸ hdw
    have hpred := dropWhile_head_false p t1 hdw2
    rw [hp] at hpred
    have hfail : belowCeiling a2.order PrimitiveKind.Shadow e2 = false := by
      simpa using hpred
    have he1 : e1 = s.headEntry e1.2 := mem_entries s (first_mem hs)
    rw [hk1] at he1
    have he2 : e2 = s.headEntry e2.2 := mem_entries s (second_mem hs)
    have hk2ne : e2.2 ≠ PrimitiveKind.Shadow := by
      intro hq
      rw [hq] at he2
      exact first_ne_second hs (he1.trans he2.symm)
    have hmem2 : e2 ∈ BatchState.entries { s with shadows := X } := by
      rw [he2, ← headEntry_set_shadows s X hk2ne]
      exact headEntry_mem _ e2.2
    have hhead : BatchState.headEntry { s with shadows := X }
        PrimitiveKind.Shadow = (some a2.order, PrimitiveKind.Shadow) := by
      simp [BatchState.headEntry, hdw]
    exact ceiling_blocks hmem2 hk2ne hhead hfail e1x e2x rx hsx hk2x
  · -- same-kind Quad case
    set p := (fun x : Quad => belowCeiling x.order PrimitiveKind.Quad e2) with hp
    set X := t1.dropWhile p with hX
    have hdw : X = a2 :: t2 := hl2
    have hdw2 : t1.dropWhile p = a2 :: t2 := hX ▸ hdw
    have hpred := dropWhile_head_false p t1 hdw2
    rw [hp] at hpred
    have hfail : belowCeiling a2.order PrimitiveKind.Quad e2 = false := by
      simpa using hpred
    have he1 : e1 = s.headEntry e1.2 := mem_entries s (first_mem hs)
    rw [hk1] at he1
    have he2 : e2 = s.headEntry e2.2 := mem_entries s (second_mem hs)
    have hk2ne : e2.2 ≠ PrimitiveKind.Quad := by
      intro hq
      rw [hq] at he2
      exact first_ne_second hs (he1.trans he2.symm)
    have hmem2 : e2 ∈ BatchState.entries { s with quads := X } := by
      rw [he2, ← headEntry_set_quads s X hk2ne]
      exact headEntry_mem _ e2.2
    have hhead : BatchState.headEntry { s with quads := X }
        PrimitiveKind.Quad = (some a2.order, PrimitiveKind.Quad) := by
      simp [BatchState.headEntry, hdw]
    exact ceiling_blocks hmem2 hk2ne hhead hfail e1x e2x rx hsx hk2x
  · -- same-kind Path case
    set p := (fun x : Path => belowCeiling x.order PrimitiveKind.Path e2) with hp
    set X := t1.dropWhile p with hX
    have hdw : X = a2 :: t2 := hl2
    have hdw2 : t1.dropWhile p = a2 :: t2 := hX ▸ hdw
    have hpred := dropWhile_head_false p t1 hdw2
    rw [hp] at hpred
    have hfail : belowCeiling a2.order PrimitiveKind.Path e2 = false := by
      simpa using hpred
    have he1 : e1 = s.headEntry e1.2 := mem_entries s (first_mem hs)
    rw [hk1] at he1
    have he2 : e2 = s.headEntry e2.2 := mem_entries s (second_mem hs)
    have hk2ne : e2.2 ≠ PrimitiveKind.Path := by
      intro hq
      rw [hq] at he2
      exact first_ne_second hs (he1.trans he2.symm)
    have hmem2 : e2 ∈ BatchState.entries { s with paths := X } := by
      rw [he2, ← headEntry_set_paths s X hk2ne]
      exact headEntry_mem _ e2.2
    have hhead : BatchState.headEntry { s with paths := X }
        PrimitiveKind.Path = (some a2.order, PrimitiveKind.Path) := by
      simp [BatchState.headEntry, hdw]
    exact ceiling_blocks hmem2 hk2ne hhead hfail e1x e2x rx hsx hk2x
  · -- same-kind Underline case
    set p := (fun x : Underline => belowCeiling x.order PrimitiveKind.Underline e2) with hp
    set X := t1.dropWhile p with hX
    have hdw : X = a2 :: t2 := hl2
    have hdw2 : t1.dropWhile p = a2 :: t2 := hX ▸ hdw
    have hpred := dropWhile_head_false p t1 hdw2
    rw [hp] at hpred
    have hfail : belowCeiling a2.order PrimitiveKind.Underline e2 = false := by
      simpa using hpred
    have he1 : e1 = s.headEntry e1.2 := mem_entries s (first_mem hs)
    rw [hk1] at he1
    have he2 : e2 = s.headEntry e2.2 := mem_entries s (second_mem hs)
    have hk2ne : e2.2 ≠ PrimitiveKind.Underline := by
      intro hq
      rw [hq] at he2
      exact first_ne_second hs (he1.trans he2.symm)
    have hmem2 : e2 ∈ BatchState.entries { s with underlines := X } := by
      rw [he2, ← headEntry_set_underlines s X hk2ne]
      exact headEntry_mem _ e2.2
    have hhead : BatchState.headEntry { s with underlines := X }
        PrimitiveKind.Underline = (some a2.order, PrimitiveKind.Underline) := by
      simp [BatchState.headEntry, hdw]
    exact ceiling_blocks hmem2 hk2ne hhead hfail e1x e2x rx hsx hk2x
  · -- same-kind MonochromeSprite case
    have htex : a1.tile.texture_id = a2.tile.texture_id := hdisc
    set p := (fun x : MonochromeSprite => belowCeiling x.order PrimitiveKind.MonochromeSprite e2 &&
      x.tile.texture_id == a1.tile.texture_id) with hp
    set X := t1.dropWhile p with hX
    have hdw : X = a2 :: t2 := hl2
    have hdw2 : t1.dropWhile p = a2 :: t2 := hX ▸ hdw
    have hpred := dropWhile_head_false p t1 hdw2
    rw [hp] at hpred
    simp only at hpred
    rw [← htex] at hpred
    have hfail : belowCeiling a2.order PrimitiveKind.MonochromeSprite e2 = false := by
      simpa using hpred
    have he1 : e1 = s.headEntry e1.2 := mem_entries s (first_mem hs)
    rw [hk1] at he1
    have he2 : e2 = s.headEntry e2.2 := mem_entries s (second_mem hs)
    have hk2ne : e2.2 ≠ PrimitiveKind.MonochromeSprite := by
      intro hq
      rw [hq] at he2
      exact first_ne_second hs (he1.trans he2.symm)
    have hmem2 : e2 ∈ BatchState.entries { s with monochrome_sprites := X } := by
      rw [he2, ← headEntry_set_monos s X hk2ne]
      exact headEntry_mem _ e2.2
    have hhead : BatchState.headEntry { s with monochrome_sprites := X }
        PrimitiveKind.MonochromeSprite = (some a2.order, PrimitiveKind.MonochromeSprite) := by
      simp [BatchState.headEntry, hdw]
    exact ceiling_blocks hmem2 hk2ne hhead hfail e1x e2x rx hsx hk2x
  · -- same-kind PolychromeSprite case
    have htex : a1.tile.texture_id = a2.tile.texture_id := hdisc
    set p := (fun x : PolychromeSprite => belowCeiling x.order PrimitiveKind.PolychromeSprite e2 &&
      x.tile.texture_id == a1.tile.texture_id) with hp
    set X := t1.dropWhile p with hX
    have hdw : X = a2 :: t2 := hl2
    have hdw2 : t1.dropWhile p = a2 :: t2 := hX ▸ hdw
    have hpred := dropWhile_head_false p t1 hdw2
    rw [hp] at hpred
    simp only at hpred
    rw [← htex] at hpred
    have hfail : belowCeiling a2.order PrimitiveKind.PolychromeSprite e2 = false := by
      simpa using hpred
    have he1 : e1 = s.headEntry e1.2 := mem_entries s (first_mem hs)
    rw [hk1] at he1
    have he2 : e2 = s.headEntry e2.2 := mem_entries s (second_mem hs)
    have hk2ne : e2.2 ≠ PrimitiveKind.PolychromeSprite := by
      intro hq
      rw [hq] at he2
      exact first_ne_second hs (he1.trans he2.symm)
    have hmem2 : e2 ∈ BatchState.entries { s with polychrome_sprites := X } := by
      rw [he2, ← headEntry_set_polys s X hk2ne]
      exact headEntry_mem _ e2.2
    have hhead : BatchState.headEntry { s with polychrome_sprites := X }
        PrimitiveKind.PolychromeSprite = (some a2.order, PrimitiveKind.PolychromeSprite) := by
      simp [BatchState.headEntry, hdw]
    exact ceiling_blocks hmem2 hk2ne hhead hfail e1x e2x rx hsx hk2x
  · -- same-kind Surface case
    set p := (fun x : Surface => belowCeiling x.order PrimitiveKind.Surface e2) with hp
    set X := t1.dropWhile p with hX
    have hdw : X = a2 :: t2 := hl2
    have hdw2 : t1.dropWhile p = a2 :: t2 := hX ▸ hdw
    have hpred := dropWhile_head_false p t1 hdw2
    rw [hp] at hpred
    have hfail : belowCeiling a2.order PrimitiveKind.Surface e2 = false := by
      simpa using hpred
    have he1 : e1 = s.headEntry e1.2 := mem_entries s (first_mem hs)
    rw [hk1] at he1
    have he2 : e2 = s.headEntry e2.2 := mem_entries s (second_mem hs)
    have hk2ne : e2.2 ≠ PrimitiveKind.Surface := by
      intro hq
      rw [hq] at he2
      exact first_ne_second hs (he1.trans he2.symm)
    have hmem2 : e2 ∈ BatchState.entries { s with surfaces := X } := by
      rw [he2, ← headEntry_set_surfaces s X hk2ne]
      exact headEntry_mem _ e2.2
    have hhead : BatchState.headEntry { s with surfaces := X }
        PrimitiveKind.Surface = (some a2.order, PrimitiveKind.Surface) := by
      simp [BatchState.headEntry, hdw]
    exact ceiling_blocks hmem2 hk2ne hhead hfail e1x e2x rx hsx hk2x

theorem drainFuel_chain (fuel : Nat) :
    ∀ s : BatchState,
      List.Chain' (fun a b => discriminator a ≠ discriminator b)
        (drainFuel fuel s) := by
  induction fuel with
  | zero => intro s; simp [drainFuel]
  | succ fuel ih =>
    intro s
    cases hnext : BatchIterator.next s with
    | none => simp [drainFuel, hnext]
    | some p =>
      obtain ⟨b, s'⟩ := p
      simp only [drainFuel, hnext]
      rw [List.chain'_cons']
      refine ⟨?_, ih s'⟩
      intro y hy
      cases fuel with
      | zero => simp [drainFuel] at hy
      | succ fuel2 =>
        cases hnext2 : BatchIterator.next s' with
        | none => simp [drainFuel, hnext2] at hy
        | some p2 =>
          obtain ⟨b2, s''⟩ := p2
          simp only [drainFuel, hnext2, List.head?_cons, Option.mem_def,
            Option.some.injEq] at hy
          subst hy
          exact no_adjacent_merge hnext hnext2

/-- **C2**: in the sequence yielded by `batches()` of a finished Scene, no
two consecutive batches share a discriminator (kind, plus texture id for
sprite batches) — the partition into batches is maximal. -/
theorem C2_maximal_partition (sc : Scene) :
    List.Chain' (fun a b => discriminator a ≠ discriminator b)
      (Scene.finish sc).batches.drain :=
  drainFuel_chain _ _

/-! ### Deterministic winner selection (kind priority) -/

theorem winner_min_aux {s : BatchState} {e1 e2 : Entry} {r : List Entry}
    (hs : s.sortedEntries = e1 :: e2 :: r) {K : PrimitiveKind} {o : Nat}
    (he1 : s.headEntry K = (some o, K)) (hk : e1.2 = K) :
    ∀ k : PrimitiveKind, k ≠ K → ∀ o2, (s.headEntry k).1 = some o2 →
      o < o2 ∨ (o = o2 ∧ K.rank < k.rank) := by
  intro k hkne o2 ho2
  have he1' : e1 = s.headEntry e1.2 := mem_entries s (first_mem hs)
  rw [hk, he1] at he1'
  have hk2 : s.headEntry k = (some o2, k) := by
    have h2 := headEntry_snd s k
    rcases hh : s.headEntry k with ⟨a, c⟩
    rw [hh] at ho2 h2
    simp only at ho2 h2
    rw [ho2, h2]
  have hmin := first_le hs (s.headEntry k) (headEntry_mem s k)
  rw [hk2, he1'] at hmin
  have hkey1 : entryKey ((some o : Option Nat), K) = (0, o, K.rank) := rfl
  have hkey2 : entryKey ((some o2 : Option Nat), k) = (0, o2, k.rank) := rfl
  simp only [entryLE, hkey1, hkey2, lex3Lt, lt_self_iff_false, false_or,
    true_and] at hmin
  have hrne : K.rank ≠ k.rank := fun hr => hkne (rank_inj hr).symm
  omega

/-- **C6**: the kind-priority enumeration Shadow < Quad < Path < Underline <
MonochromeSprite < PolychromeSprite < Surface is what `rank` encodes; the
winning kind of every merge step is strictly minimal among all non-empty
cursors under the lexicographic (head order, kind rank) comparison; and the
ceiling test compares (order, kind) pairs with the same priority order. -/
theorem C6_kind_priority (s : BatchState) (b : PrimitiveBatch)
    (s' : BatchState) (h : BatchIterator.next s = some (b, s')) :
    (∀ k : PrimitiveKind, kindPriority.indexOf k = k.rank) ∧
    (∀ (o : Nat) (k : PrimitiveKind) (o2 : Nat) (k2 : PrimitiveKind),
      belowCeiling o k (some o2, k2) = true ↔
        (o < o2 ∨ (o = o2 ∧ k.rank < k2.rank))) ∧
    (∃ o, (s.headEntry b.kind).1 = some o ∧
      ∀ k : PrimitiveKind, k ≠ b.kind →
        ∀ o2, (s.headEntry k).1 = some o2 →
          o < o2 ∨ (o = o2 ∧ b.kind.rank < k.rank)) := by
  refine ⟨by intro k; cases k <;> rfl, ?_, ?_⟩
  · intro o k o2 k2
    have hkey : entryKey ((some o2 : Option Nat), k2) = (0, o2, k2.rank) := rfl
    simp only [belowCeiling, hkey, lex3Lt, decide_eq_true_eq,
      lt_self_iff_false, false_or, true_and]
  · obtain ⟨e1, e2, r, hs, hsome, hc⟩ := next_some h
    rcases hc with ⟨hd, tl, hk, hl, rfl, rfl⟩ | ⟨hd, tl, hk, hl, rfl, rfl⟩ |
      ⟨hd, tl, hk, hl, rfl, rfl⟩ | ⟨hd, tl, hk, hl, rfl, rfl⟩ |
      ⟨hd, tl, hk, hl, rfl, rfl⟩ | ⟨hd, tl, hk, hl, rfl, rfl⟩ |
      ⟨hd, tl, hk, hl, rfl, rfl⟩ <;>
      exact ⟨hd.order,
        by simp [BatchState.headEntry, PrimitiveBatch.kind, hl],
        winner_min_aux hs (by simp [BatchState.headEntry, PrimitiveBatch.kind, hl]) hk⟩

/-- Zero color used to build concrete witnesses. -/
def hsla0 : Hsla := ⟨0, 0, 0, 0⟩

/-- Zero corner radii for concrete witnesses. -/
def corners0 : Corners := ⟨0, 0, 0, 0⟩

/-- Zero edge widths for concrete witnesses. -/
def edges0 : Edges := ⟨0, 0, 0, 0⟩

/-- A unit box at the origin for concrete witnesses. -/
def bounds1 : Bounds := ⟨⟨0, 0⟩, ⟨1, 1⟩⟩

/-- A content mask covering the unit box, for concrete witnesses. -/
def mask1 : ContentMask := ⟨bounds1⟩

/-- A concrete quad used by the C6 witness. -/
def q0 : Quad := ⟨0, bounds1, mask1, hsla0, hsla0, corners0, edges0⟩

/-- Witness iterator state: a single quad under the cursors. -/
def st0 : BatchState := ⟨[], [q0], [], [], [], [], []⟩

/-- Witness iterator state after the single batch is emitted. -/
def st0' : BatchState := ⟨[], [], [], [], [], [], []⟩

theorem C6_kind_priority_witness :
    BatchIterator.next st0 = some (PrimitiveBatch.Quads [q0], st0') ∧
      ((∀ k : PrimitiveKind, kindPriority.indexOf k = k.rank) ∧
       (∀ (o : Nat) (k : PrimitiveKind) (o2 : Nat) (k2 : PrimitiveKind),
         belowCeiling o k (some o2, k2) = true ↔
           (o < o2 ∨ (o = o2 ∧ k.rank < k2.rank))) ∧
       (∃ o, (st0.headEntry (PrimitiveBatch.Quads [q0]).kind).1 = some o ∧
         ∀ k : PrimitiveKind, k ≠ (PrimitiveBatch.Quads [q0]).kind →
           ∀ o2, (st0.headEntry k).1 = some o2 →
             o < o2 ∨ (o = o2 ∧ (PrimitiveBatch.Quads [q0]).kind.rank <
               k.rank))) :=
  ⟨by decide, C6_kind_priority st0 (PrimitiveBatch.Quads [q0]) st0' (by decide)⟩

/-! ### What finish() sorts by -/

theorem shadowLE_iff (a b : Shadow) : shadowLE a b ↔ a.order ≤ b.order := by
  simp only [shadowLE, Shadow.cmp, ne_eq, Nat.compare_eq_gt]
  omega

theorem quadLE_iff (a b : Quad) : quadLE a b ↔ a.order ≤ b.order := by
  simp only [quadLE, Quad.cmp, ne_eq, Nat.compare_eq_gt]
  omega

theorem pathLE_iff (a b : Path) : pathLE a b ↔ a.order ≤ b.order := by
  simp only [pathLE, Path.cmp, ne_eq, Nat.compare_eq_gt]
  omega

theorem underlineLE_iff (a b : Underline) :
    underlineLE a b ↔ a.order ≤ b.order := by
  simp only [underlineLE, Underline.cmp, ne_eq, Nat.compare_eq_gt]
  omega

theorem surfaceLE_iff (a b : Surface) : surfaceLE a b ↔ a.order ≤ b.order := by
  simp only [surfaceLE, Surface.cmp, ne_eq, Nat.compare_eq_gt]
  omega

theorem monoLE_iff (a b : MonochromeSprite) :
    monoLE a b ↔ (a.order < b.order ∨
      (a.order = b.order ∧ a.tile.tile_id ≤ b.tile.tile_id)) := by
  unfold monoLE MonochromeSprite.cmp
  cases h : compare a.order b.order with
  | lt =>
    have ho := Nat.compare_eq_lt.mp h
    constructor
    · intro _
      exact Or.inl ho
    · intro _
      simp
  | eq =>
    have ho := Nat.compare_eq_eq.mp h
    simp only [ne_eq, Nat.compare_eq_gt, ho, lt_self_iff_false, false_or,
      true_and]
    omega
  | gt =>
    have ho := Nat.compare_eq_gt.mp h
    constructor
    · intro hcontra
      exact absurd rfl hcontra
    · intro hrhs
      exfalso
      rcases hrhs with hlt | ⟨heq, _⟩ <;> omega

theorem polyLE_iff (a b : PolychromeSprite) :
    polyLE a b ↔ (a.order < b.order ∨
      (a.order = b.order ∧ a.tile.tile_id ≤ b.tile.tile_id)) := by
  unfold polyLE PolychromeSprite.cmp
  cases h : compare a.order b.order with
  | lt =>
    have ho := Nat.compare_eq_lt.mp h
    constructor
    · intro _
      exact Or.inl ho
    · intro _
      simp
  | eq =>
    have ho := Nat.compare_eq_eq.mp h
    simp only [ne_eq, Nat.compare_eq_gt, ho, lt_self_iff_false, false_or,
      true_and]
    omega
  | gt =>
    have ho := Nat.compare_eq_gt.mp h
    constructor
    · intro hcontra
      exact absurd rfl hcontra
    · intro hrhs
      exfalso
      rcases hrhs with hlt | ⟨heq, _⟩ <;> omega

instance : IsTotal Shadow shadowLE :=
  ⟨fun a b => by simp only [shadowLE_iff]; omega⟩

instance : IsTrans Shadow shadowLE :=
  ⟨fun a b c hab hbc => by
    simp only [shadowLE_iff] at hab hbc ⊢
    omega⟩

instance : IsTotal Quad quadLE :=
  ⟨fun a b => by simp only [quadLE_iff]; omega⟩

instance : IsTrans Quad quadLE :=
  ⟨fun a b c hab hbc => by
    simp only [quadLE_iff] at hab hbc ⊢
    omega⟩

instance : IsTotal Path pathLE :=
  ⟨fun a b => by simp only [pathLE_iff]; omega⟩

instance : IsTrans Path pathLE :=
  ⟨fun a b c hab hbc => by
    simp only [pathLE_iff] at hab hbc ⊢
    omega⟩

instance : IsTotal Underline underlineLE :=
  ⟨fun a b => by simp only [underlineLE_iff]; omega⟩

instance : IsTrans Underline underlineLE :=
  ⟨fun a b c hab hbc => by
    simp only [underlineLE_iff] at hab hbc ⊢
    omega⟩

instance : IsTotal Surface surfaceLE :=
  ⟨fun a b => by simp only [surfaceLE_iff]; omega⟩

instance : IsTrans Surface surfaceLE :=
  ⟨fun a b c hab hbc => by
    simp only [surfaceLE_iff] at hab hbc ⊢
    omega⟩

instance : IsTotal MonochromeSprite monoLE :=
  ⟨fun a b => by simp only [monoLE_iff]; omega⟩

instance : IsTrans MonochromeSprite monoLE :=
  ⟨fun a b c hab hbc => by
    simp only [monoLE_iff] at hab hbc ⊢
    omega⟩

instance : IsTotal PolychromeSprite polyLE :=
  ⟨fun a b => by simp only [polyLE_iff]; omega⟩

instance : IsTrans PolychromeSprite polyLE :=
  ⟨fun a b c hab hbc => by
    simp only [polyLE_iff] at hab hbc ⊢
    omega⟩

/-- The sprite tie-break order the claim asserts: ascending `order`, ties by
`texture_id`. -/
abbrev monoTexRel (a b : MonochromeSprite) : Prop :=
  a.order < b.order ∨ (a.order = b.order ∧
    a.tile.texture_id ≤ b.tile.texture_id)

/-- A monochrome sprite with order 0, texture id 1, tile id 0. -/
def mA : MonochromeSprite := ⟨0, bounds1, mask1, hsla0, ⟨1, 0⟩⟩

/-- A monochrome sprite with order 0, texture id 0, tile id 1. -/
def mB : MonochromeSprite := ⟨0, bounds1, mask1, hsla0, ⟨0, 1⟩⟩

/-- A scene holding the two tie-breaking counterexample sprites. -/
def scC3 : Scene := { Scene.empty with monochrome_sprites := [mA, mB] }

/-- **C3 counterexample**: `finish()` does NOT break equal-order sprite ties
by texture id: with two equal-order sprites whose texture and tile ids
cross, the sorted list orders them by tile id against the texture order. -/
theorem C3_counterexample :
    ¬ (∀ sc : Scene,
        List.Sorted monoTexRel (Scene.finish sc).monochrome_sprites) := by
  intro h
  have hs := h scC3
  have hlist : (Scene.finish scC3).monochrome_sprites = [mA, mB] := by decide
  rw [hlist] at hs
  have h2 := (List.sorted_cons.mp hs).1 mB (List.mem_singleton.mpr rfl)
  simp [monoTexRel, mA, mB] at h2

/-- **C3 (amended)**: `finish()` sorts each kind list ascending by `order`,
and for the two sprite kinds breaks equal-order ties by the tile id (not the
texture id); each sorted list is a permutation of the original. -/
theorem C3_finish_sorts (sc : Scene) :
    (List.Sorted (fun a b : Shadow => a.order ≤ b.order)
        (Scene.finish sc).shadows ∧
      List.Sorted (fun a b : Quad => a.order ≤ b.order)
        (Scene.finish sc).quads ∧
      List.Sorted (fun a b : Path => a.order ≤ b.order)
        (Scene.finish sc).paths ∧
      List.Sorted (fun a b : Underline => a.order ≤ b.order)
        (Scene.finish sc).underlines ∧
      List.Sorted (fun a b : MonochromeSprite => a.order < b.order ∨
          (a.order = b.order ∧ a.tile.tile_id ≤ b.tile.tile_id))
        (Scene.finish sc).monochrome_sprites ∧
      List.Sorted (fun a b : PolychromeSprite => a.order < b.order ∨
          (a.order = b.order ∧ a.tile.tile_id ≤ b.tile.tile_id))
        (Scene.finish sc).polychrome_sprites ∧
      List.Sorted (fun a b : Surface => a.order ≤ b.order)
        (Scene.finish sc).surfaces) ∧
    ((Scene.finish sc).shadows.Perm sc.shadows ∧
      (Scene.finish sc).quads.Perm sc.quads ∧
      (Scene.finish sc).paths.Perm sc.paths ∧
      (Scene.finish sc).underlines.Perm sc.underlines ∧
      (Scene.finish sc).monochrome_sprites.Perm sc.monochrome_sprites ∧
      (Scene.finish sc).polychrome_sprites.Perm sc.polychrome_sprites ∧
      (Scene.finish sc).surfaces.Perm sc.surfaces) := by
  refine ⟨⟨?_, ?_, ?_, ?_, ?_, ?_, ?_⟩, ?_, ?_, ?_, ?_, ?_, ?_, ?_⟩
  · exact (List.sorted_insertionSort shadowLE sc.shadows).imp
      (fun h => (shadowLE_iff _ _).mp h)
  · exact (List.sorted_insertionSort quadLE sc.quads).imp
      (fun h => (quadLE_iff _ _).mp h)
  · exact (List.sorted_insertionSort pathLE sc.paths).imp
      (fun h => (pathLE_iff _ _).mp h)
  · exact (List.sorted_insertionSort underlineLE sc.underlines).imp
      (fun h => (underlineLE_iff _ _).mp h)
  · exact (List.sorted_insertionSort monoLE sc.monochrome_sprites).imp
      (fun h => (monoLE_iff _ _).mp h)
  · exact (List.sorted_insertionSort polyLE sc.polychrome_sprites).imp
      (fun h => (polyLE_iff _ _).mp h)
  · exact (List.sorted_insertionSort surfaceLE sc.surfaces).imp
      (fun h => (surfaceLE_iff _ _).mp h)
  · exact List.perm_insertionSort shadowLE sc.shadows
  · exact List.perm_insertionSort quadLE sc.quads
  · exact List.perm_insertionSort pathLE sc.paths
  · exact List.perm_insertionSort underlineLE sc.underlines
  · exact List.perm_insertionSort monoLE sc.monochrome_sprites
  · exact List.perm_insertionSort polyLE sc.polychrome_sprites
  · exact List.perm_insertionSort surfaceLE sc.surfaces

/-! ### The texture-split scenario -/

/-- Monochrome sprite with texture id 10, tile id 0 (pre-push). -/
def spriteA1in : MonochromeSprite := ⟨0, bounds1, mask1, hsla0, ⟨10, 0⟩⟩

/-- Monochrome sprite with texture id 10, tile id 1 (pre-push). -/
def spriteA2in : MonochromeSprite := ⟨0, bounds1, mask1, hsla0, ⟨10, 1⟩⟩

/-- Monochrome sprite with texture id 20, tile id 2 (pre-push). -/
def spriteBin : MonochromeSprite := ⟨0, bounds1, mask1, hsla0, ⟨20, 2⟩⟩

/-- The quad of the scenario (pre-push). -/
def quadIn : Quad := ⟨0, bounds1, mask1, hsla0, hsla0, corners0, edges0⟩

/-- The scenario scene: sprites with texture ids [A, A, B] receiving orders
1, 2, 4, and a quad receiving order 3 (the order index hands out 1, 2, 3, 4
in push sequence: sprite A, sprite A, quad, sprite B). -/
def scC4 : Scene :=
  ((({ Scene.empty with next_order := 1 }.push
      (Primitive.MonochromeSprite spriteA1in)).push
    (Primitive.MonochromeSprite spriteA2in)).push
    (Primitive.Quad quadIn)).push (Primitive.MonochromeSprite spriteBin)

/-- **C4 counterexample**: the scenario does NOT yield four batches — the
drain has exactly three (sprite batch A, quad batch, sprite batch B). -/
theorem C4_counterexample :
    ((Scene.finish scC4).batches.drain).length ≠ 4 := by
  have h : ((Scene.finish scC4).batches.drain).length = 3 := by
    with_unfolding_all rfl
  omega

/-- **C4 (amended)**: the scenario yields, in order, a sprite batch with
texture A holding the items at orders 1 and 2, a quad batch with the item at
order 3, and a sprite batch with texture B holding the item at order 4 —
three batches total, the A-sprites never merged with the B-sprite. -/
theorem C4_scenario :
    (Scene.finish scC4).batches.drain =
      [PrimitiveBatch.MonochromeSprites 10
         [{ spriteA1in with order := 1 }, { spriteA2in with order := 2 }],
       PrimitiveBatch.Quads [{ quadIn with order := 3 }],
       PrimitiveBatch.MonochromeSprites 20
         [{ spriteBin with order := 4 }]] := by with_unfolding_all rfl

/-! ### Degenerate pushes, and the path builder -/

/-- **C5**: pushing a primitive whose bounds intersected with its content
mask have width or height ≤ 0 is a silent no-op: the Scene value is
completely unchanged (so `len()`, every kind list, and the order index are
unchanged, no error arises, and the primitive can appear in no subsequent
batch). -/
theorem C5_push_noop (s : Scene) (p : Primitive)
    (h : (p.bounds.intersect p.content_mask.bounds).size.width ≤ 0 ∨
      (p.bounds.intersect p.content_mask.bounds).size.height ≤ 0) :
    s.push p = s ∧ (s.push p).len = s.len := by
  have heq : s.push p = s := by
    unfold Scene.push
    rw [if_pos h]
  exact ⟨heq, by rw [heq]⟩

/-- A quad whose content mask lies entirely away from its bounds. -/
def q5 : Quad :=
  ⟨0, bounds1, ⟨⟨⟨5, 5⟩, ⟨1, 1⟩⟩⟩, hsla0, hsla0, corners0, edges0⟩

/-- The degenerate-push witness primitive. -/
def p5 : Primitive := Primitive.Quad q5

theorem C5_push_noop_witness :
    ((p5.bounds.intersect p5.content_mask.bounds).size.width ≤ 0 ∨
      (p5.bounds.intersect p5.content_mask.bounds).size.height ≤ 0) ∧
    (Scene.empty.push p5 = Scene.empty ∧
      (Scene.empty.push p5).len = Scene.empty.len) := by
  have h0 : (p5.bounds.intersect p5.content_mask.bounds).size.width = -4 := by
    with_unfolding_all rfl
  have hw : (p5.bounds.intersect p5.content_mask.bounds).size.width ≤ 0 := by
    rw [h0]
    norm_num
  exact ⟨Or.inl hw, C5_push_noop Scene.empty p5 (Or.inl hw)⟩

/-- The zero content mask stamped on every emitted path vertex. -/
def mask0 : ContentMask := ⟨⟨⟨0, 0⟩, ⟨0, 0⟩⟩⟩

/-- **C7**: on a fresh path the first `line_to` emits zero triangles; a
second `line_to` emits exactly one triangle whose three UVs are all (0,1);
and `curve_to` always emits exactly one triangle more than `line_to` would
in the same state, the extra triangle carrying UVs (0,0), (0.5,0), (1,1). -/
theorem C7_path_triangles (s a b dest ctrl : Point) (p : Path) :
    ((Path.new s).line_to a).vertices = [] ∧
    ((((Path.new s).line_to a).line_to b).vertices.length = 3 ∧
      ((((Path.new s).line_to a).line_to b).vertices.map
        PathVertex.st_position) = [⟨0, 1⟩, ⟨0, 1⟩, ⟨0, 1⟩]) ∧
    (p.curve_to dest ctrl).vertices =
      (p.line_to dest).vertices ++
        [⟨p.current, ⟨0, 0⟩, mask0⟩, ⟨ctrl, ⟨1/2, 0⟩, mask0⟩,
         ⟨dest, ⟨1, 1⟩, mask0⟩] := by
  refine ⟨rfl, ⟨rfl, rfl⟩, ?_⟩
  by_cases hc : p.contour_count + 1 > 1 <;>
    simp [Path.curve_to, Path.line_to, Path.push_triangle, hc, mask0]

/-- **C10**: after `Path::new(start)` and one `line_to` (no prior segment),
the bounds are still the degenerate zero-size box at `start` — the endpoint
is not yet included, because bounds only grow when a triangle is emitted —
while `current` has advanced. -/
theorem C10_first_line_bounds (s t : Point) :
    ((Path.new s).line_to t).bounds = ⟨s, ⟨0, 0⟩⟩ ∧
    ((Path.new s).line_to t).current = t :=
  ⟨rfl, rfl⟩

/-- **C8**: `scale(factor)` returns a path with positions, bounds, and
content mask uniformly scaled, preserving vertex count, `contour_count`,
color and identity; the receiver is untouched (all operations are pure
values in this embedding, so non-mutation is structural). -/
theorem C8_scale (p : Path) (factor : ℚ) :
    (p.scale factor).vertices = p.vertices.map (fun v => v.scale factor) ∧
    ((p.scale factor).vertices.map (fun v => v.xy_position)) =
      (p.vertices.map (fun v => v.xy_position.scale factor)) ∧
    (p.scale factor).bounds = p.bounds.scale factor ∧
    (p.scale factor).content_mask = p.content_mask.scale factor ∧
    (p.scale factor).vertices.length = p.vertices.length ∧
    (p.scale factor).contour_count = p.contour_count ∧
    (p.scale factor).color = p.color ∧
    (p.scale factor).id = p.id := by
  refine ⟨rfl, ?_, rfl, rfl, ?_, rfl, rfl, rfl⟩
  · simp [Path.scale, PathVertex.scale]
  · simp [Path.scale]

end Zed
